import Mathlib

/-!
Verification of the context-construction and gas-mixture-splitting logic of
`openscm_units._unit_registry` (class `ScmUnitRegistry`).

The underlying dimensional-analysis engine (pint) is modelled by its
conversion semantics: a quantity is a magnitude together with its units, and
the units of a quantity are characterised by the data pint uses for
conversion, namely a scale factor to base units and a dimensionality vector
(an integer exponent for each dimension tag).  Magnitudes are idealised as
exact rationals; the IEEE value NaN, which the source manipulates through
`math.isnan`, is modelled explicitly as `none` in `Option ℚ`, with arithmetic
propagating it exactly as float arithmetic propagates NaN.

Dimension tags are drawn from an arbitrary finite type `δ` (finiteness gives
decidable equality of dimensionality vectors, which pint's context lookup
compares); concrete instances use `Fin n`.
-/

set_option autoImplicit false

namespace OpenscmUnits

/-- Float values: `some q` is the real number `q`, `none` is NaN. -/
abbrev FV := Option ℚ

/-- Float multiplication; NaN propagates. -/
def fmul : FV → FV → FV
  | some a, some b => some (a * b)
  | _, _ => none

/-- Float division; NaN propagates.  (Division by zero does not occur in any
of the verified code paths.) -/
def fdiv : FV → FV → FV
  | some a, some b => some (a / b)
  | _, _ => none

/-- Float addition; NaN propagates. -/
def fadd : FV → FV → FV
  | some a, some b => some (a + b)
  | _, _ => none

/-- `math.isnan`. -/
def fisnan : FV → Bool
  | none => true
  | some _ => false

/-- A pint quantity: magnitude, and its units described by the scale factor
to base units together with the dimensionality vector. -/
structure Quantity (δ : Type) where
  mag : FV
  scale : ℚ
  dims : δ → ℤ

/-- Quantity times quantity: magnitudes and scales multiply, dimensionality
vectors add. -/
def qmul {δ : Type} (q r : Quantity δ) : Quantity δ :=
  ⟨fmul q.mag r.mag, q.scale * r.scale, q.dims + r.dims⟩

/-- Quantity divided by quantity. -/
def qdiv {δ : Type} (q r : Quantity δ) : Quantity δ :=
  ⟨fdiv q.mag r.mag, q.scale / r.scale, q.dims - r.dims⟩

/-- Quantity times a bare scalar. -/
def qsmul {δ : Type} (q : Quantity δ) (c : FV) : Quantity δ :=
  ⟨fmul q.mag c, q.scale, q.dims⟩

/-- Quantity divided by a bare scalar. -/
def qsdiv {δ : Type} (q : Quantity δ) (c : FV) : Quantity δ :=
  ⟨fdiv q.mag c, q.scale, q.dims⟩

/-- The dimensionality vector of a single dimension tag, e.g. `[carbon]`. -/
def dOne {δ : Type} [DecidableEq δ] (x : δ) : δ → ℤ :=
  fun y => if y = x then 1 else 0

/-- One registered context transformation.  pint stores, for a pair of
dimensionality expressions, a transformation function; the functions built by
`_add_transformations_to_context` are closures over the two unit quantities,
the conversion value and the direction flag, which is exactly the data stored
here (`Trans.apply` gives the function). -/
structure Trans (δ : Type) where
  src : δ → ℤ
  dst : δ → ℤ
  fwd : Bool
  baseQ : Quantity δ
  otherQ : Quantity δ
  conv : FV

/-- The transformation function:
forward is `strt * other_unit_ureg / base_unit_ureg * conv_val`,
backward is `strt * (base_unit_ureg / other_unit_ureg) / conv_val`. -/
def Trans.apply {δ : Type} (t : Trans δ) (strt : Quantity δ) : Quantity δ :=
  if t.fwd then qsmul (qdiv (qmul strt t.otherQ) t.baseQ) t.conv
  else qsdiv (qmul strt (qdiv t.baseQ t.otherQ)) t.conv

/-- Look up the transformation registered for a `(src, dst)` dimensionality
pair.  pint's `Context.add_transformation` stores functions in a dict keyed
by the pair, so a later registration for the same pair overwrites an earlier
one: the fold keeps the last match. -/
def lookupTrans {δ : Type} [DecidableEq δ] [Fintype δ]
    (ctx : List (Trans δ)) (s d : δ → ℤ) : Option (Trans δ) :=
  ctx.foldl (fun acc t => if t.src = s ∧ t.dst = d then some t else acc) none

/-- The four shape templates of `_add_transformations_to_context`:
`"{}"`, `"[mass] * {} / [time]"`, `"[mass] * {}"`, `"{} / [time]"`,
as maps on dimensionality vectors. -/
def shapes {δ : Type} [DecidableEq δ] (dMass dTime : δ) :
    List ((δ → ℤ) → (δ → ℤ)) :=
  [fun v => v,
   fun v => v + dOne dMass - dOne dTime,
   fun v => v + dOne dMass,
   fun v => v - dOne dTime]

/-- `ScmUnitRegistry._add_transformations_to_context`: for each shape
template, register the forward and the backward transformation. -/
def addTransformationsToContext {δ : Type} [DecidableEq δ] (dMass dTime : δ)
    (context : List (Trans δ))
    (base_unit : δ → ℤ) (base_unit_ureg : Quantity δ)
    (other_unit : δ → ℤ) (other_unit_ureg : Quantity δ)
    (conv_val : FV) : List (Trans δ) :=
  (shapes dMass dTime).foldl
    (fun ctx sh =>
      ctx ++
        [⟨sh base_unit, sh other_unit, true, base_unit_ureg, other_unit_ureg, conv_val⟩,
         ⟨sh other_unit, sh base_unit, false, base_unit_ureg, other_unit_ureg, conv_val⟩])
    context

/-- A pint `DimensionalityError`, carrying the source and destination
dimensionalities (pint's message names the corresponding units). -/
structure ConvErr (δ : Type) where
  src : δ → ℤ
  dst : δ → ℤ

/-- Plain (context-free) pint conversion `quantity.to(target)`: allowed
exactly when the dimensionalities agree, in which case the magnitude scales
by the ratio of the scale factors. -/
def toPlain {δ : Type} [DecidableEq δ] [Fintype δ]
    (q t : Quantity δ) : Except (ConvErr δ) (Quantity δ) :=
  if q.dims = t.dims then
    .ok ⟨fmul q.mag (some (q.scale / t.scale)), t.scale, t.dims⟩
  else .error ⟨q.dims, t.dims⟩

/-- pint conversion with an active context: when the dimensionalities differ,
the transformation registered for the dimensionality pair is applied to the
quantity and the result is converted normally. -/
def toCtx {δ : Type} [DecidableEq δ] [Fintype δ]
    (ctx : List (Trans δ)) (q t : Quantity δ) : Except (ConvErr δ) (Quantity δ) :=
  if q.dims = t.dims then toPlain q t
  else
    match lookupTrans ctx q.dims t.dims with
    | some tr => toPlain (tr.apply q) t
    | none => .error ⟨q.dims, t.dims⟩

/-- The constituent table of one mixture: ordered (species, (mass-fraction
percent, lower bound, upper bound)) entries.  The code reads only the first
component of each triple (`for constituent, (fraction_pct, _, _) in
mixture.items()`). -/
abbrev MixtureEntries := List (String × (ℚ × ℚ × ℚ))

/-- The mixtures table `MIXTURES` keyed by mixture name
(`openscm_units.data.mixtures`). -/
abbrev MixTable := List (String × MixtureEntries)

/-- The ambient registry interface used by the embedded methods:
`reg s` is the quantity `self(s)` for a unit name `s`; `dimName d` is the
name inside the dimension tag `d` (pint prints a tag as `"[name]"` and the
source strips the brackets with `x[1:-1]`); `MIX` is the mixtures table;
`dMass`, `dTime`, `dCarbon` are the `[mass]`, `[time]` and `[carbon]`
dimensions; `allDims` enumerates the dimension tags (the key order of
pint's dimensionality dicts). -/
structure Env (δ : Type) where
  reg : String → Quantity δ
  dimName : δ → String
  MIX : MixTable
  dMass : δ
  dTime : δ
  dCarbon : δ
  allDims : List δ

/-- The three errors raised by `split_gas_mixture`:
`ValueError("Dimensions don't contain a gas mixture.")`,
`NotImplementedError("More than one gas mixture in dimensions is not
supported.")`, and `NotImplementedError(f"Mixture has dimensionality {e}
!= 1, which is not supported.")` whose message names the actual exponent
(carried here as the constructor argument). -/
inductive SplitError where
  | notAMixture
  | multipleMixtures
  | unsupportedExponent (e : ℤ)
  deriving DecidableEq

/-- The list comprehension
`[x for x in quantity.dimensionality.keys() if x[1:-1] in MIXTURES]`:
dimension tags with nonzero exponent whose bracket-stripped name is a known
mixture. -/
def mixtureDimensions {δ : Type} [DecidableEq δ] (env : Env δ)
    (quantity : Quantity δ) : List δ :=
  env.allDims.filter
    (fun x => quantity.dims x != 0 && ((env.MIX.lookup (env.dimName x)).isSome : Bool))

/-- `ScmUnitRegistry.split_gas_mixture`.  The `match` performs the source's
checks in order: no mixture dimension, more than one, then an exponent
different from 1; otherwise one quantity
`quantity / mixture_unit * fraction_pct / 100 * constituent_unit` is
returned per constituent, in table order. -/
def split_gas_mixture {δ : Type} [DecidableEq δ] [Fintype δ] (env : Env δ)
    (quantity : Quantity δ) : Except SplitError (List (Quantity δ)) :=
  match mixtureDimensions env quantity with
  | [] => .error .notAMixture
  | [mixture_dimension] =>
    if quantity.dims mixture_dimension ≠ 1 then
      .error (.unsupportedExponent (quantity.dims mixture_dimension))
    else
      -- the filter in `mixtureDimensions` guarantees this lookup succeeds,
      -- so `getD` never supplies its default
      let mixture := (env.MIX.lookup (env.dimName mixture_dimension)).getD []
      let mixture_unit := env.reg (env.dimName mixture_dimension)
      .ok (mixture.map (fun e =>
        qmul (qsdiv (qsmul (qdiv quantity mixture_unit) (some (e.2.1))) (some 100))
          (env.reg (e.1))))
  | _ :: _ :: _ => .error .multipleMixtures

/-- Python's `sum` over a list of float magnitudes. -/
def fvSum (l : List FV) : FV := l.foldl fadd (some 0)

/-- `quantity.to_base_units().magnitude`. -/
def qToBaseMag {δ : Type} (q : Quantity δ) : FV := fmul q.mag (some q.scale)

/-- The keys of a dimensionality dict: tags with nonzero exponent. -/
def dimsKeys {δ : Type} (allDims : List δ) (v : δ → ℤ) : List δ :=
  allDims.filter (fun d => v d != 0)

/-- `next(iter(dimensionality.keys()))`: the first key. -/
def pickDim {δ : Type} (allDims : List δ) (v : δ → ℤ) : Option δ :=
  (dimsKeys allDims v).head?

/-- `ScmUnitRegistry._add_gwp_to_context`: compute
`conv_val = val * self("CO2").to_base_units().magnitude /
self(label).to_base_units().magnitude`, take the species' base dimension
tag, and register transformations between it and `[carbon]`. -/
def addGwpToContext {δ : Type} [DecidableEq δ] [Fintype δ] (env : Env δ)
    (transform_context : List (Trans δ)) (label : String) (val : FV) :
    List (Trans δ) :=
  let conv_val := fdiv (fmul val (qToBaseMag (env.reg ("CO2"))))
    (qToBaseMag (env.reg label))
  match pickDim env.allDims ((env.reg label).dims) with
  | none => transform_context  -- unreachable: every species unit carries a dimension tag
  | some base_unit =>
    addTransformationsToContext env.dMass env.dTime transform_context
      (dOne base_unit) (env.reg (env.dimName base_unit))
      (dOne env.dCarbon) (env.reg ("carbon")) conv_val

/-- One iteration of the mixture loop of
`_add_metric_conversions_from_df`: split one unit quantity of the mixture;
`val = sum(c.magnitude * metric_conversion[str(c.units)] for c in
constituents)`, where `str(c.units)` is the constituent's own symbol (in the
split of `1 * self(mixture)` the mixture unit cancels out of each
constituent quantity, leaving exactly the species symbol from the table, so
the constituent quantities are paired here with the table's names); a
`KeyError` (some constituent without a row) skips the mixture, as does a
NaN sum; otherwise the mixture's factor is registered via
`_add_gwp_to_context`. -/
def addMixtureGwp {δ : Type} [DecidableEq δ] [Fintype δ] (env : Env δ)
    (metric_conversion : List (String × FV)) (ctx : List (Trans δ))
    (mixture : String) : List (Trans δ) :=
  match split_gas_mixture env (qsmul (env.reg mixture) (some 1)) with
  | .error _ => ctx  -- unreachable: a mixture unit carries exactly its own mixture tag
  | .ok constituents =>
    let names := ((env.MIX.lookup mixture).getD []).map (fun e => e.1)
    if names.all (fun n => (metric_conversion.lookup n).isSome) then
      let val : FV := (constituents.zip names).foldl
        (fun acc p => fadd acc (fmul p.1.mag ((metric_conversion.lookup p.2).getD none)))
        (some 0)
      if fisnan val then ctx
      else addGwpToContext env ctx mixture val
    else ctx

/-- The value `sum(c.magnitude * metric_conversion[str(c.units)] for c in
constituents)` computed by the mixture loop, written out for a mixture `m`
with dimension tag `dM` and table `tbl` (the form `split_gas_mixture`
returns for `1 * self(m)`). -/
def mixtureVal {δ : Type} (env : Env δ) (col : List (String × FV))
    (m : String) (dM : δ) (tbl : MixtureEntries) : FV :=
  ((tbl.map (fun e =>
      qmul (qsdiv (qsmul (qdiv (qsmul (env.reg m) (some 1))
        (env.reg (env.dimName dM))) (some (e.2.1))) (some 100))
        (env.reg (e.1)))).zip
    (tbl.map (fun e => e.1))).foldl
    (fun acc p => fadd acc (fmul p.1.mag ((col.lookup p.2).getD none)))
    (some 0)

/-- `ScmUnitRegistry._add_metric_conversions_from_df`, for one metric
column: first a transformation per `(label, val)` row of the column, then
the mixture loop over all known mixtures. -/
def addMetricConversionsCol {δ : Type} [DecidableEq δ] [Fintype δ] (env : Env δ)
    (metric_conversion : List (String × FV)) : List (Trans δ) :=
  let ctx := metric_conversion.foldl
    (fun c p => addGwpToContext env c p.1 p.2) []
  (env.MIX.map (fun e => e.1)).foldl
    (fun c m => addMixtureGwp env metric_conversion c m) ctx

/-- `_add_contexts`'s CH4 context: transformations between `[methane]`
(dimension `dMethane`) and `[carbon]` for the units `self.CH4` and `self.C`
with conversion value `12 / 16`. -/
def ch4Context {δ : Type} [DecidableEq δ] [Fintype δ] (env : Env δ)
    (dMethane : δ) : List (Trans δ) :=
  addTransformationsToContext env.dMass env.dTime []
    (dOne dMethane) (env.reg ("CH4")) (dOne env.dCarbon) (env.reg ("C"))
    (some (12 / 16))

instance {δ : Type} [DecidableEq δ] [Fintype δ] : DecidableEq (Quantity δ) :=
  fun a b =>
    decidable_of_iff (a.mag = b.mag ∧ a.scale = b.scale ∧ a.dims = b.dims)
      (by cases a; cases b; simp)

instance {δ : Type} [DecidableEq δ] [Fintype δ] : DecidableEq (Trans δ) :=
  fun a b =>
    decidable_of_iff (a.src = b.src ∧ a.dst = b.dst ∧ a.fwd = b.fwd ∧
        a.baseQ = b.baseQ ∧ a.otherQ = b.otherQ ∧ a.conv = b.conv)
      (by cases a; cases b; simp)

instance {δ : Type} [DecidableEq δ] [Fintype δ] : DecidableEq (ConvErr δ) :=
  fun a b =>
    decidable_of_iff (a.src = b.src ∧ a.dst = b.dst)
      (by cases a; cases b; simp)

/-- Modelled from the spec: the mixture-composition data
(`openscm_units/data/mixtures.py` is not under `src/`).  Dimension tags are
`Fin 13`: 0 `[carbon]`, 1 `[mass]`, 2 `[time]`, 3 `[methane]`, 4
`[CFC400]`, 5 `[HFC423a]`, 6 `[HFC407a]`, 7 `[CFC12]`, 8 `[CFC114]`, 9
`[HFC32]`, 10 `[HFC125]`, 11 `[HFC134a]`, 12 `[HFC227ea]`.  The mixture
compositions are the mass-fraction tables the spec's examples rely on:
CFC400 is an equal blend of CFC12 and CFC114, HFC407a is 20 % HFC32, 40 %
HFC125, 40 % HFC134a (its weighted AR4GWP100 sum is the spec's 2107),
HFC423a is 52.5 % HFC134a and 47.5 % HFC227ea; the second and third triple
components (uncertainty bounds, unread by the code) are filled with 0. -/
def exMixtures : MixTable :=
  [(("CFC400"), [(("CFC12"), (50, 0, 0)), (("CFC114"), (50, 0, 0))]),
   (("HFC407a"), [(("HFC32"), (20, 0, 0)), (("HFC125"), (40, 0, 0)),
     (("HFC134a"), (40, 0, 0))]),
   (("HFC423a"), [(("HFC134a"), (105 / 2, 0, 0)), (("HFC227ea"), (95 / 2, 0, 0))])]

/-- Modelled from the spec: the registry contents relevant to the examples
(the standard-gas table is under `src/`, the concrete fixture wires the
few units the examples need).  Each unit name maps to the pint quantity
`self(name)`: magnitude 1, the scale factor to base units, and the
dimensionality.  `CO2` is `12/44 * C` (from `_STANDARD_GASES`), every other
listed unit is a base unit of its own dimension. -/
def exReg : String → Quantity (Fin 13) := fun s =>
  match s with
  | "carbon" => ⟨some 1, 1, dOne 0⟩
  | "C" => ⟨some 1, 1, dOne 0⟩
  | "CO2" => ⟨some 1, 12 / 44, dOne 0⟩
  | "methane" => ⟨some 1, 1, dOne 3⟩
  | "CH4" => ⟨some 1, 1, dOne 3⟩
  | "CFC400" => ⟨some 1, 1, dOne 4⟩
  | "HFC423a" => ⟨some 1, 1, dOne 5⟩
  | "HFC407a" => ⟨some 1, 1, dOne 6⟩
  | "CFC12" => ⟨some 1, 1, dOne 7⟩
  | "CFC114" => ⟨some 1, 1, dOne 8⟩
  | "HFC32" => ⟨some 1, 1, dOne 9⟩
  | "HFC125" => ⟨some 1, 1, dOne 10⟩
  | "HFC134a" => ⟨some 1, 1, dOne 11⟩
  | "HFC227ea" => ⟨some 1, 1, dOne 12⟩
  | _ => ⟨some 1, 1, 0⟩

/-- The names inside the `Fin 13` dimension tags of the fixture. -/
def exDimName : Fin 13 → String := fun d =>
  List.getD
    [("carbon"), ("mass"), ("time"), ("methane"), ("CFC400"), ("HFC423a"),
      ("HFC407a"), ("CFC12"), ("CFC114"), ("HFC32"), ("HFC125"), ("HFC134a"),
      ("HFC227ea")]
    (d.val) ("")

/-- The concrete fixture environment over `Fin 13`. -/
def exEnv : Env (Fin 13) :=
  ⟨exReg, exDimName, exMixtures, 1, 2, 0, List.finRange 13⟩

/-- A mixtures table whose HFC407a fraction table sums to 120 instead of
100 (for refuting the sum-to-one condition of the synthesis guarantee). -/
def exMixturesBad : MixTable :=
  [(("HFC407a"), [(("HFC32"), (30, 0, 0)), (("HFC125"), (40, 0, 0)),
     (("HFC134a"), (50, 0, 0))])]

/-- The fixture environment with the ill-summed mixtures table. -/
def envBad : Env (Fin 13) :=
  ⟨exReg, exDimName, exMixturesBad, 1, 2, 0, List.finRange 13⟩

/-- A metric column that covers the mixture HFC407a directly (value 999)
while also tabulating all of its constituents. -/
def colBad : List (String × FV) :=
  [(("HFC32"), some 675), (("HFC125"), some 3500), (("HFC134a"), some 1430),
   (("HFC407a"), some 999)]

/-- The fixture environment with an empty mixtures table (for statements
about the direct species rows alone). -/
def exEnvNM : Env (Fin 13) :=
  ⟨exReg, exDimName, [], 1, 2, 0, List.finRange 13⟩

/-- Modelled from the spec: the `AR4GWP100` column rows the examples need
(the GWP table comes from the external `globalwarmingpotentials` package;
the HFC32 value 675 also appears in the repository's tests, HFC125 is 3500
and HFC134a is 1430, making HFC407a's weighted sum 2107). -/
def ar4Col : List (String × FV) :=
  [(("CH4"), some 25), (("HFC32"), some 675), (("HFC125"), some 3500),
   (("HFC134a"), some 1430)]

/-- Dimension multisets for the gases sub-model: sorted lists of dimension
names with multiplicity, so that list equality is multiset equality. -/
def dimsInsert (d : String) : List String → List String
  | [] => [d]
  | x :: xs => if d ≤ x then d :: x :: xs else x :: dimsInsert d xs

/-- Merge of two dimension multisets (for unit products). -/
def dimsMerge (a b : List String) : List String := a.foldr dimsInsert b

/-- A defined unit of the gases sub-model: its scale factor and dimension
multiset. -/
structure UnitDefn where
  scale : ℚ
  dims : List String
  deriving DecidableEq

/-- The head of a list-valued `_STANDARD_GASES` entry: a plain unit name
(`"CH4"`) or a scaled one (`"12/44 * C"`). -/
inductive UnitExpr where
  | ref (u : String)
  | scaled (q : ℚ) (u : String)
  deriving DecidableEq

/-- A `_STANDARD_GASES` table value: a `str` (the symbol is a base unit,
the string its dimension name) or a list (a conversion expression followed
by aliases). -/
inductive GasVal where
  | base (dimname : String)
  | derived (head : UnitExpr) (aliases : List String)
  deriving DecidableEq

/-- One `define` call, by kind: `"sym = [dim]"`, `"sym = q * u"` (aliases
have `q = 1`), or a joint unit `"g<sym> = g * sym"` / `"t<sym> = t * sym"`. -/
inductive DefBody where
  | newBase (dim : String)
  | fromExpr (q : ℚ) (u : String)
  | jointOf (mass u : String)
  deriving DecidableEq

def exprBody : UnitExpr → DefBody
  | .ref u => .fromExpr 1 u
  | .scaled q u => .fromExpr q u

/-- The body of the first `define` emitted for a symbol. -/
def headBody : GasVal → DefBody
  | .base dn => .newBase dn
  | .derived h _ => exprBody h

/-- `_add_mass_emissions_joint_version`: the two joint-unit defines. -/
def jointDefines (symbol : String) : List (String × DefBody) :=
  [(("g") ++ symbol, DefBody.jointOf ("g") symbol),
   (("t") ++ symbol, DefBody.jointOf ("t") symbol)]

/-- The defines emitted between a symbol's own definition and its
upper-case alias: the branch-specific aliases plus the symbol's two joint
units. -/
def midDefs (symbol : String) (value : GasVal) : List (String × DefBody) :=
  (match value with
   | .base dimname =>
     if dimname ≠ symbol then [(dimname, DefBody.fromExpr 1 symbol)] else []
   | .derived _ aliases =>
     aliases.map (fun a => (a, DefBody.fromExpr 1 symbol)))
  ++ jointDefines symbol

/-- `_add_gases`: the `define` calls emitted for one `(symbol, value)`
item, in source order — the symbol itself (with aliases for the `str` /
list cases), its joint units, and, when the upper-case spelling differs,
the upper-case alias and its joint units. -/
def gasDefines (symbol : String) (value : GasVal) : List (String × DefBody) :=
  (match value with
   | .base dimname =>
     (symbol, DefBody.newBase dimname) ::
       (if dimname ≠ symbol then [(dimname, DefBody.fromExpr 1 symbol)] else [])
   | .derived head aliases =>
     (symbol, exprBody head) ::
       aliases.map (fun a => (a, DefBody.fromExpr 1 symbol)))
  ++ jointDefines symbol
  ++ (if symbol.toUpper ≠ symbol then
        (symbol.toUpper, DefBody.fromExpr 1 symbol) ::
          jointDefines symbol.toUpper
      else [])

/-- `_add_gases` over a whole gases table. -/
def addGases (gases : List (String × GasVal)) : List (String × DefBody) :=
  (gases.map (fun e => gasDefines e.1 e.2)).flatten

/-- The registry of the gases sub-model: an association list where a newer
definition of a name shadows an older one (the engine's overwrite on
redefinition). -/
abbrev MiniReg := List (String × UnitDefn)

/-- Evaluate one `define` call against the current registry; aliases and
joint units resolve their referents at definition time.  (An unresolvable
reference — which the engine would reject and which the theorems'
hypotheses rule out — leaves the registry unchanged.) -/
def applyDefine (r : MiniReg) (d : String × DefBody) : MiniReg :=
  match d.2 with
  | .newBase dim => (d.1, ⟨1, [dim]⟩) :: r
  | .fromExpr q u =>
    match r.lookup u with
    | some du => (d.1, ⟨q * du.scale, du.dims⟩) :: r
    | none => r
  | .jointOf mu u =>
    match r.lookup mu, r.lookup u with
    | some dm, some du =>
      (d.1, ⟨dm.scale * du.scale, dimsMerge dm.dims du.dims⟩) :: r
    | _, _ => r

def applyDefines (r : MiniReg) (ds : List (String × DefBody)) : MiniReg :=
  ds.foldl applyDefine r

/-- Magnitude of `registry(x).to(y)` in the gases sub-model: defined when
both units exist and their dimension multisets agree. -/
def miniToMag (r : MiniReg) (x y : String) : Option ℚ :=
  match r.lookup x, r.lookup y with
  | some dx, some dy =>
    if dx.dims = dy.dims then some (dx.scale / dy.scale) else none
  | _, _ => none

@[simp] theorem dOne_self {δ : Type} [DecidableEq δ] (x : δ) : dOne x x = 1 := by
  simp [dOne]

theorem dOne_apply_ne {δ : Type} [DecidableEq δ] {x y : δ} (h : y ≠ x) :
    dOne x y = 0 := by
  simp [dOne, h]

theorem ne_of_apply_ne_point {δ : Type} {v w : δ → ℤ} (p : δ) (h : v p ≠ w p) :
    v ≠ w := fun he => h (congrFun he p)

theorem dOne_ne_dOne {δ : Type} [DecidableEq δ] {x y : δ} (h : x ≠ y) :
    dOne x ≠ dOne y := by
  refine ne_of_apply_ne_point x ?_
  rw [dOne_self, dOne_apply_ne h]
  decide

section NeLemmas

variable {δ : Type} [DecidableEq δ] {dMass dTime dX dY : δ}

theorem ne_shift_mt (hMT : dMass ≠ dTime) (dX : δ) :
    dOne dX + dOne dMass - dOne dTime ≠ dOne dX := by
  refine ne_of_apply_ne_point dMass ?_
  simp only [Pi.add_apply, Pi.sub_apply]
  rw [dOne_self, dOne_apply_ne hMT]
  omega

theorem ne_shift_m (dX : δ) : dOne dX + dOne dMass ≠ (dOne dX : δ → ℤ) := by
  refine ne_of_apply_ne_point dMass ?_
  simp only [Pi.add_apply]
  rw [dOne_self]
  omega

theorem ne_shift_t (dX : δ) : dOne dX - dOne dTime ≠ (dOne dX : δ → ℤ) := by
  refine ne_of_apply_ne_point dTime ?_
  simp only [Pi.sub_apply]
  rw [dOne_self]
  omega

theorem ne_cross_mt (hYX : dY ≠ dX) (hYM : dY ≠ dMass) (hYT : dY ≠ dTime) :
    dOne dY + dOne dMass - dOne dTime ≠ dOne dX := by
  refine ne_of_apply_ne_point dY ?_
  simp only [Pi.add_apply, Pi.sub_apply]
  rw [dOne_self, dOne_apply_ne hYM, dOne_apply_ne hYT, dOne_apply_ne hYX]
  omega

theorem ne_cross_m (hYX : dY ≠ dX) (hYM : dY ≠ dMass) :
    dOne dY + dOne dMass ≠ dOne dX := by
  refine ne_of_apply_ne_point dY ?_
  simp only [Pi.add_apply]
  rw [dOne_self, dOne_apply_ne hYM, dOne_apply_ne hYX]
  omega

theorem ne_cross_t (hYX : dY ≠ dX) (hYT : dY ≠ dTime) :
    dOne dY - dOne dTime ≠ dOne dX := by
  refine ne_of_apply_ne_point dY ?_
  simp only [Pi.sub_apply]
  rw [dOne_self, dOne_apply_ne hYT, dOne_apply_ne hYX]
  omega

end NeLemmas

/-- Unfolded form of the context built by
`_add_transformations_to_context`: eight transformations appended in order. -/
theorem addTransformationsToContext_eq {δ : Type} [DecidableEq δ]
    (dMass dTime : δ) (ctx : List (Trans δ)) (a b : δ → ℤ)
    (qA qB : Quantity δ) (c : FV) :
    addTransformationsToContext dMass dTime ctx a qA b qB c =
      ctx ++
      [⟨a, b, true, qA, qB, c⟩,
       ⟨b, a, false, qA, qB, c⟩,
       ⟨a + dOne dMass - dOne dTime, b + dOne dMass - dOne dTime, true, qA, qB, c⟩,
       ⟨b + dOne dMass - dOne dTime, a + dOne dMass - dOne dTime, false, qA, qB, c⟩,
       ⟨a + dOne dMass, b + dOne dMass, true, qA, qB, c⟩,
       ⟨b + dOne dMass, a + dOne dMass, false, qA, qB, c⟩,
       ⟨a - dOne dTime, b - dOne dTime, true, qA, qB, c⟩,
       ⟨b - dOne dTime, a - dOne dTime, false, qA, qB, c⟩] := by
  simp [addTransformationsToContext, shapes]

section Lookup

variable {δ : Type} [DecidableEq δ] [Fintype δ]
variable {dA dB dMass dTime : δ}

/-- In the context built for the pair `(dA, dB)`, the transformation looked
up for the bare pair `(dA, dB)` is the forward one, whatever was in the
context before (dict overwrite semantics). -/
theorem lookupTrans_atc_fwd
    (hAB : dA ≠ dB) (hBM : dB ≠ dMass) (hBT : dB ≠ dTime) (hMT : dMass ≠ dTime)
    (ctx : List (Trans δ)) (qA qB : Quantity δ) (c : FV) :
    lookupTrans (addTransformationsToContext dMass dTime ctx (dOne dA) qA (dOne dB) qB c)
        (dOne dA) (dOne dB) =
      some ⟨dOne dA, dOne dB, true, qA, qB, c⟩ := by
  have hBA : dB ≠ dA := Ne.symm hAB
  rw [addTransformationsToContext_eq]
  unfold lookupTrans
  rw [List.foldl_append]
  simp only [List.foldl_cons, List.foldl_nil]
  rw [if_neg (fun hc => ne_cross_t hBA hBT hc.1),
    if_neg (fun hc => @ne_shift_t δ _ dTime dA hc.1),
    if_neg (fun hc => ne_cross_m hBA hBM hc.1),
    if_neg (fun hc => @ne_shift_m δ _ dMass dA hc.1),
    if_neg (fun hc => ne_cross_mt hBA hBM hBT hc.1),
    if_neg (fun hc => ne_shift_mt hMT dA hc.1),
    if_neg (fun hc => dOne_ne_dOne hBA hc.1),
    if_pos ⟨trivial, trivial⟩]

/-- In the context built for the pair `(dA, dB)`, the transformation looked
up for the bare pair `(dB, dA)` is the backward one. -/
theorem lookupTrans_atc_bwd
    (hAB : dA ≠ dB) (hAM : dA ≠ dMass) (hAT : dA ≠ dTime) (hMT : dMass ≠ dTime)
    (ctx : List (Trans δ)) (qA qB : Quantity δ) (c : FV) :
    lookupTrans (addTransformationsToContext dMass dTime ctx (dOne dA) qA (dOne dB) qB c)
        (dOne dB) (dOne dA) =
      some ⟨dOne dB, dOne dA, false, qA, qB, c⟩ := by
  rw [addTransformationsToContext_eq]
  unfold lookupTrans
  rw [List.foldl_append]
  simp only [List.foldl_cons, List.foldl_nil]
  rw [if_neg (fun hc => @ne_shift_t δ _ dTime dB hc.1),
    if_neg (fun hc => ne_cross_t hAB hAT hc.1),
    if_neg (fun hc => @ne_shift_m δ _ dMass dB hc.1),
    if_neg (fun hc => ne_cross_m hAB hAM hc.1),
    if_neg (fun hc => ne_shift_mt hMT dB hc.1),
    if_neg (fun hc => ne_cross_mt hAB hAM hAT hc.1),
    if_pos ⟨trivial, trivial⟩]

end Lookup

section Lookup2

variable {δ : Type} [DecidableEq δ] [Fintype δ]
variable {dA dB dMass dTime : δ}

/-- Conversion, under the built context, of a quantity of the base dimension
to a target of the other dimension: the forward transformation applies. -/
theorem toCtx_atc_fwd
    (hAB : dA ≠ dB) (hBM : dB ≠ dMass) (hBT : dB ≠ dTime) (hMT : dMass ≠ dTime)
    (ctx : List (Trans δ)) (qA qB : Quantity δ) (c : FV) (q t : Quantity δ)
    (hq : q.dims = dOne dA) (ht : t.dims = dOne dB) :
    toCtx (addTransformationsToContext dMass dTime ctx (dOne dA) qA (dOne dB) qB c) q t =
      toPlain (Trans.apply ⟨dOne dA, dOne dB, true, qA, qB, c⟩ q) t := by
  unfold toCtx
  rw [hq, ht, if_neg (dOne_ne_dOne hAB), lookupTrans_atc_fwd hAB hBM hBT hMT]

/-- Conversion, under the built context, of a quantity of the other dimension
back to a target of the base dimension: the backward transformation
applies. -/
theorem toCtx_atc_bwd
    (hAB : dA ≠ dB) (hAM : dA ≠ dMass) (hAT : dA ≠ dTime) (hMT : dMass ≠ dTime)
    (ctx : List (Trans δ)) (qA qB : Quantity δ) (c : FV) (q t : Quantity δ)
    (hq : q.dims = dOne dB) (ht : t.dims = dOne dA) :
    toCtx (addTransformationsToContext dMass dTime ctx (dOne dA) qA (dOne dB) qB c) q t =
      toPlain (Trans.apply ⟨dOne dB, dOne dA, false, qA, qB, c⟩ q) t := by
  unfold toCtx
  rw [hq, ht, if_neg (dOne_ne_dOne (Ne.symm hAB)), lookupTrans_atc_bwd hAB hAM hAT hMT]

end Lookup2

/-- C1: for every context built by `_add_transformations_to_context` from a
pair of units `unit_a`, `unit_b` (single-tag dimensions `dA`, `dB`, scale
factors `sA`, `sB`, magnitude 1) and a scalar `conv_val`, transformations are
registered in both directions for each of exactly the four shape templates
(bare; `[mass] * dim / [time]`; `[mass] * dim`; `dim / [time]`), with
`forward(x) = x * unit_b / unit_a * conv_val` and
`backward(x) = x * unit_a / unit_b / conv_val`; for every quantity `x`,
`backward(forward(x)) = x`; and with the context active, `registry(A).to(B)`
has magnitude `conv_val` and `registry(B).to(A)` has magnitude
`1 / conv_val`. -/
theorem claim_C1 {δ : Type} [DecidableEq δ] [Fintype δ]
    (dA dB dMass dTime : δ) (sA sB conv : ℚ)
    (hAB : dA ≠ dB) (hAM : dA ≠ dMass) (hAT : dA ≠ dTime)
    (hBM : dB ≠ dMass) (hBT : dB ≠ dTime) (hMT : dMass ≠ dTime)
    (hsA : sA ≠ 0) (hsB : sB ≠ 0) (hconv : conv ≠ 0) :
    addTransformationsToContext dMass dTime []
        (dOne dA) ⟨some 1, sA, dOne dA⟩ (dOne dB) ⟨some 1, sB, dOne dB⟩ (some conv) =
      [⟨dOne dA, dOne dB, true, ⟨some 1, sA, dOne dA⟩, ⟨some 1, sB, dOne dB⟩, some conv⟩,
       ⟨dOne dB, dOne dA, false, ⟨some 1, sA, dOne dA⟩, ⟨some 1, sB, dOne dB⟩, some conv⟩,
       ⟨dOne dA + dOne dMass - dOne dTime, dOne dB + dOne dMass - dOne dTime, true,
         ⟨some 1, sA, dOne dA⟩, ⟨some 1, sB, dOne dB⟩, some conv⟩,
       ⟨dOne dB + dOne dMass - dOne dTime, dOne dA + dOne dMass - dOne dTime, false,
         ⟨some 1, sA, dOne dA⟩, ⟨some 1, sB, dOne dB⟩, some conv⟩,
       ⟨dOne dA + dOne dMass, dOne dB + dOne dMass, true,
         ⟨some 1, sA, dOne dA⟩, ⟨some 1, sB, dOne dB⟩, some conv⟩,
       ⟨dOne dB + dOne dMass, dOne dA + dOne dMass, false,
         ⟨some 1, sA, dOne dA⟩, ⟨some 1, sB, dOne dB⟩, some conv⟩,
       ⟨dOne dA - dOne dTime, dOne dB - dOne dTime, true,
         ⟨some 1, sA, dOne dA⟩, ⟨some 1, sB, dOne dB⟩, some conv⟩,
       ⟨dOne dB - dOne dTime, dOne dA - dOne dTime, false,
         ⟨some 1, sA, dOne dA⟩, ⟨some 1, sB, dOne dB⟩, some conv⟩] ∧
    (∀ x : Quantity δ,
      Trans.apply ⟨dOne dA, dOne dB, true, ⟨some 1, sA, dOne dA⟩, ⟨some 1, sB, dOne dB⟩, some conv⟩ x =
        qsmul (qdiv (qmul x ⟨some 1, sB, dOne dB⟩) ⟨some 1, sA, dOne dA⟩) (some conv)) ∧
    (∀ x : Quantity δ,
      Trans.apply ⟨dOne dB, dOne dA, false, ⟨some 1, sA, dOne dA⟩, ⟨some 1, sB, dOne dB⟩, some conv⟩ x =
        qsdiv (qmul x (qdiv ⟨some 1, sA, dOne dA⟩ ⟨some 1, sB, dOne dB⟩)) (some conv)) ∧
    (∀ x : Quantity δ,
      Trans.apply ⟨dOne dB, dOne dA, false, ⟨some 1, sA, dOne dA⟩, ⟨some 1, sB, dOne dB⟩, some conv⟩
        (Trans.apply ⟨dOne dA, dOne dB, true, ⟨some 1, sA, dOne dA⟩, ⟨some 1, sB, dOne dB⟩, some conv⟩ x)
        = x) ∧
    toCtx (addTransformationsToContext dMass dTime []
        (dOne dA) ⟨some 1, sA, dOne dA⟩ (dOne dB) ⟨some 1, sB, dOne dB⟩ (some conv))
      ⟨some 1, sA, dOne dA⟩ ⟨some 1, sB, dOne dB⟩ = .ok ⟨some conv, sB, dOne dB⟩ ∧
    toCtx (addTransformationsToContext dMass dTime []
        (dOne dA) ⟨some 1, sA, dOne dA⟩ (dOne dB) ⟨some 1, sB, dOne dB⟩ (some conv))
      ⟨some 1, sB, dOne dB⟩ ⟨some 1, sA, dOne dA⟩ = .ok ⟨some (1 / conv), sA, dOne dA⟩ := by
  refine ⟨?_, fun x => rfl, fun x => rfl, ?_, ?_, ?_⟩
  · rw [addTransformationsToContext_eq]
    rfl
  · intro x
    obtain ⟨m, s, d⟩ := x
    simp only [Trans.apply, qsmul, qsdiv, qmul, qdiv, if_true, Bool.false_eq_true,
      if_false, Quantity.mk.injEq]
    refine ⟨?_, ?_, ?_⟩
    · cases m with
      | none => rfl
      | some q =>
        simp only [fmul, fdiv, Option.some.injEq]
        field_simp
    · field_simp
    · abel
  · rw [toCtx_atc_fwd hAB hBM hBT hMT _ _ _ _ _ _ rfl rfl]
    unfold toPlain
    rw [if_pos (show (Trans.apply _ _).dims = _ by
      simp only [Trans.apply, qsmul, qsdiv, qmul, qdiv, if_true]
      abel)]
    simp only [Trans.apply, qsmul, qsdiv, qmul, qdiv, if_true, fmul, fdiv,
      Except.ok.injEq, Quantity.mk.injEq]
    refine ⟨?_, trivial, trivial⟩
    congr 1
    field_simp
  · rw [toCtx_atc_bwd hAB hAM hAT hMT _ _ _ _ _ _ rfl rfl]
    unfold toPlain
    rw [if_pos (show (Trans.apply _ _).dims = _ by
      simp only [Trans.apply, qsmul, qsdiv, qmul, qdiv, Bool.false_eq_true, if_false]
      abel)]
    simp only [Trans.apply, qsmul, qsdiv, qmul, qdiv, Bool.false_eq_true, if_false,
      fmul, fdiv, Except.ok.injEq, Quantity.mk.injEq]
    refine ⟨?_, trivial, trivial⟩
    congr 1
    field_simp

/-- Witness for C1: concrete instantiation with `δ := Fin 4`, unit scales 1
and conversion value 2. -/
theorem claim_C1_witness :
    ((0 : Fin 4) ≠ 1 ∧ (0 : Fin 4) ≠ 2 ∧ (0 : Fin 4) ≠ 3 ∧ (1 : Fin 4) ≠ 2 ∧
      (1 : Fin 4) ≠ 3 ∧ (2 : Fin 4) ≠ 3 ∧ (1 : ℚ) ≠ 0 ∧ (2 : ℚ) ≠ 0) ∧
    toCtx (addTransformationsToContext (2 : Fin 4) 3 []
        (dOne 0) ⟨some 1, 1, dOne 0⟩ (dOne 1) ⟨some 1, 1, dOne 1⟩ (some 2))
      ⟨some 1, 1, dOne 0⟩ ⟨some 1, 1, dOne 1⟩ = .ok ⟨some 2, 1, dOne 1⟩ ∧
    toCtx (addTransformationsToContext (2 : Fin 4) 3 []
        (dOne 0) ⟨some 1, 1, dOne 0⟩ (dOne 1) ⟨some 1, 1, dOne 1⟩ (some 2))
      ⟨some 1, 1, dOne 1⟩ ⟨some 1, 1, dOne 0⟩ = .ok ⟨some (1 / 2), 1, dOne 0⟩ :=
  ⟨⟨by decide, by decide, by decide, by decide, by decide, by decide,
      by norm_num, by norm_num⟩,
    (claim_C1 0 1 2 3 1 1 2 (by decide) (by decide) (by decide) (by decide)
      (by decide) (by decide) (by norm_num) (by norm_num) (by norm_num)).2.2.2.2.1,
    (claim_C1 0 1 2 3 1 1 2 (by decide) (by decide) (by decide) (by decide)
      (by decide) (by decide) (by norm_num) (by norm_num) (by norm_num)).2.2.2.2.2⟩

/-- A nodup list filters to the singleton of the unique element satisfying
the predicate. -/
theorem filter_eq_singleton_of_unique {δ : Type} {l : List δ} {p : δ → Bool}
    {a : δ} (hnd : l.Nodup) (ha : a ∈ l) (hp : ∀ x, p x = true ↔ x = a) :
    l.filter p = [a] := by
  induction l with
  | nil => cases ha
  | cons x xs ih =>
    rw [List.filter_cons]
    rcases List.mem_cons.1 ha with rfl | hmem
    · rw [if_pos ((hp a).2 rfl)]
      have hnil : xs.filter p = [] := by
        rw [List.filter_eq_nil_iff]
        intro b hb hpb
        exact (List.nodup_cons.1 hnd).1 (((hp b).1 hpb) ▸ hb)
      rw [hnil]
    · have hxa : x ≠ a := by
        rintro rfl
        exact (List.nodup_cons.1 hnd).1 hmem
      rw [if_neg (by simp [hp x, hxa])]
      exact ih (List.nodup_cons.1 hnd).2 hmem

/-- A quantity with the single dimension tag of a known mixture has exactly
that one mixture dimension. -/
theorem mixtureDimensions_singleton {δ : Type} [DecidableEq δ] (env : Env δ)
    (q : Quantity δ) (dM : δ) (hnd : env.allDims.Nodup)
    (hmem : dM ∈ env.allDims) (hdims : q.dims = dOne dM)
    (hlook : (env.MIX.lookup (env.dimName dM)).isSome = true) :
    mixtureDimensions env q = [dM] := by
  unfold mixtureDimensions
  refine filter_eq_singleton_of_unique hnd hmem ?_
  intro x
  constructor
  · intro hx
    simp only [Bool.and_eq_true, bne_iff_ne, ne_eq] at hx
    by_contra hne
    exact hx.1 (by rw [hdims, dOne_apply_ne hne])
  · rintro rfl
    simp only [Bool.and_eq_true, bne_iff_ne, ne_eq]
    refine ⟨by rw [hdims, dOne_self]; decide, hlook⟩

/-- Evaluation of `split_gas_mixture` on a quantity with exactly one mixture
dimension of exponent 1. -/
theorem split_gas_mixture_eval {δ : Type} [DecidableEq δ] [Fintype δ]
    (env : Env δ) (q : Quantity δ) (dM : δ) (tbl : MixtureEntries)
    (hfil : mixtureDimensions env q = [dM]) (hexp : q.dims dM = 1)
    (hlook : env.MIX.lookup (env.dimName dM) = some tbl) :
    split_gas_mixture env q =
      .ok (tbl.map (fun e =>
        qmul (qsdiv (qsmul (qdiv q (env.reg (env.dimName dM))) (some (e.2.1)))
          (some 100)) (env.reg (e.1)))) := by
  unfold split_gas_mixture
  rw [hfil]
  dsimp only
  rw [if_neg (fun hc => hc hexp), hlook, Option.getD_some]

theorem fvSum_foldl_map_some {α : Type} (g : α → ℚ) (l : List α) :
    ∀ a : ℚ,
      List.foldl fadd (some a) (l.map (fun e => some (g e))) =
        some (a + (l.map g).sum) := by
  induction l with
  | nil => intro a; simp
  | cons x xs ih =>
    intro a
    simp only [List.map_cons, List.foldl_cons, fadd, List.sum_cons]
    rw [ih, add_assoc]

theorem sum_map_div_const {α : Type} (l : List α) (f : α → ℚ) (c : ℚ) :
    (l.map (fun e => f e / c)).sum = (l.map f).sum / c := by
  induction l with
  | nil => simp
  | cons x xs ih => simp [ih, add_div]

theorem fvSum_map_some_div (tbl : MixtureEntries) :
    ∀ a : ℚ,
      List.foldl fadd (some a) (tbl.map (fun e => some (e.2.1 / 100))) =
        some (a + (tbl.map (fun e => e.2.1)).sum / 100) := by
  induction tbl with
  | nil => intro a; simp
  | cons x xs ih =>
    intro a
    simp only [List.map_cons, List.foldl_cons, fadd, List.sum_cons]
    rw [ih]
    congr 1
    ring

/-- C5: `split_gas_mixture` checks its preconditions in order: a
dimensionality with zero known-mixture tags raises the not-a-mixture
`ValueError`; more than one such tag raises the multiple-mixtures
`NotImplementedError`; a single tag whose exponent is not exactly 1 raises
the unsupported-power `NotImplementedError` whose message names that actual
exponent. -/
theorem claim_C5 {δ : Type} [DecidableEq δ] [Fintype δ] (env : Env δ)
    (q : Quantity δ) :
    (mixtureDimensions env q = [] →
      split_gas_mixture env q = .error .notAMixture) ∧
    (∀ d1 d2 rest, mixtureDimensions env q = d1 :: d2 :: rest →
      split_gas_mixture env q = .error .multipleMixtures) ∧
    (∀ d, mixtureDimensions env q = [d] → q.dims d ≠ 1 →
      split_gas_mixture env q = .error (.unsupportedExponent (q.dims d))) := by
  refine ⟨?_, ?_, ?_⟩
  · intro h
    unfold split_gas_mixture
    rw [h]
  · intro d1 d2 rest h
    unfold split_gas_mixture
    rw [h]
  · intro d h hne
    unfold split_gas_mixture
    rw [h]
    dsimp only
    rw [if_pos hne]

/-- Witness for C5, on the fixture: `1 * CO2` is not a mixture;
`1 * CFC400 * HFC423a` holds two mixtures; `1 * CFC400 ** 2` has mixture
exponent 2, which the error names. -/
theorem claim_C5_witness :
    (mixtureDimensions exEnv (qsmul (exEnv.reg ("CO2")) (some 1)) = [] ∧
      split_gas_mixture exEnv (qsmul (exEnv.reg ("CO2")) (some 1)) =
        .error .notAMixture) ∧
    (mixtureDimensions exEnv
        (qmul (qsmul (exEnv.reg ("CFC400")) (some 1)) (exEnv.reg ("HFC423a"))) =
        [4, 5] ∧
      split_gas_mixture exEnv
        (qmul (qsmul (exEnv.reg ("CFC400")) (some 1)) (exEnv.reg ("HFC423a"))) =
        .error .multipleMixtures) ∧
    (mixtureDimensions exEnv
        (qsmul (qmul (exEnv.reg ("CFC400")) (exEnv.reg ("CFC400"))) (some 1)) =
        [4] ∧
      (qsmul (qmul (exEnv.reg ("CFC400")) (exEnv.reg ("CFC400"))) (some 1)).dims 4 = 2 ∧
      split_gas_mixture exEnv
        (qsmul (qmul (exEnv.reg ("CFC400")) (exEnv.reg ("CFC400"))) (some 1)) =
        .error (.unsupportedExponent 2)) := by
  have h1 : mixtureDimensions exEnv (qsmul (exEnv.reg ("CO2")) (some 1)) = [] := by
    decide
  have h2 : mixtureDimensions exEnv
      (qmul (qsmul (exEnv.reg ("CFC400")) (some 1)) (exEnv.reg ("HFC423a"))) =
      [4, 5] := by decide
  have h3 : mixtureDimensions exEnv
      (qsmul (qmul (exEnv.reg ("CFC400")) (exEnv.reg ("CFC400"))) (some 1)) =
      [4] := by decide
  have hex : (qsmul (qmul (exEnv.reg ("CFC400")) (exEnv.reg ("CFC400"))) (some 1)).dims 4 = 2 := by
    decide
  refine ⟨⟨h1, (claim_C5 exEnv _).1 h1⟩,
    ⟨h2, (claim_C5 exEnv _).2.1 4 5 [] h2⟩,
    ⟨h3, hex, ?_⟩⟩
  have := (claim_C5 exEnv _).2.2 4 h3 (by rw [hex]; decide)
  rw [hex] at this
  exact this

/-- C10: for every quantity whose dimensionality contains exactly one
known-mixture tag, with exponent exactly 1 — arbitrary magnitude and
arbitrary additional dimensions allowed — `split_gas_mixture` returns, for
each constituent in table order, the quantity
`q / mixture_unit * fraction_pct / 100 * constituent_unit`, so the input's
magnitude and non-mixture dimensions are carried through as factors of
every returned constituent quantity. -/
theorem claim_C10 {δ : Type} [DecidableEq δ] [Fintype δ] (env : Env δ)
    (q : Quantity δ) (dM : δ) (tbl : MixtureEntries)
    (hfil : mixtureDimensions env q = [dM]) (hexp : q.dims dM = 1)
    (hlook : env.MIX.lookup (env.dimName dM) = some tbl) :
    split_gas_mixture env q =
      .ok (tbl.map (fun e =>
        qmul (qsdiv (qsmul (qdiv q (env.reg (env.dimName dM))) (some (e.2.1)))
          (some 100)) (env.reg (e.1)))) :=
  split_gas_mixture_eval env q dM tbl hfil hexp hlook

/-- Witness for C10: a quantity `3 kt CFC400 / time` (magnitude 3, scale
1000, mass and inverse-time dimensions alongside the mixture tag) splits
into the two CFC400 constituents with the magnitude and extra dimensions
carried through. -/
theorem claim_C10_witness :
    (mixtureDimensions exEnv
        (⟨some 3, 1000, dOne 4 + dOne 1 - dOne 2⟩ : Quantity (Fin 13)) = [4] ∧
      (⟨some 3, 1000, dOne 4 + dOne 1 - dOne 2⟩ : Quantity (Fin 13)).dims 4 = 1 ∧
      exEnv.MIX.lookup (exEnv.dimName 4) =
        some [(("CFC12"), (50, 0, 0)), (("CFC114"), (50, 0, 0))]) ∧
    split_gas_mixture exEnv (⟨some 3, 1000, dOne 4 + dOne 1 - dOne 2⟩ : Quantity (Fin 13)) =
      .ok (([(("CFC12"), (50, 0, 0)), (("CFC114"), (50, 0, 0))] : MixtureEntries).map
        (fun e =>
          qmul (qsdiv (qsmul (qdiv (⟨some 3, 1000, dOne 4 + dOne 1 - dOne 2⟩ : Quantity (Fin 13))
              (exEnv.reg (exEnv.dimName 4))) (some (e.2.1))) (some 100))
            (exEnv.reg (e.1)))) :=
  ⟨⟨by decide, by decide, by decide⟩,
    claim_C10 exEnv _ 4 _ (by decide) (by decide) (by decide)⟩

/-- C2: for a mixture whose fraction table sums to 100, splitting
`1 * registry(M)` returns one quantity per constituent in table order,
`q / mixture_unit * fraction_pct / 100 * constituent_unit`, and their
magnitudes sum exactly to 1. -/
theorem claim_C2 {δ : Type} [DecidableEq δ] [Fintype δ] (env : Env δ)
    (M : String) (dM : δ) (sM : ℚ) (tbl : MixtureEntries)
    (hnd : env.allDims.Nodup) (hmemd : dM ∈ env.allDims)
    (hlook : env.MIX.lookup M = some tbl)
    (hname : env.dimName dM = M)
    (hreg : env.reg M = ⟨some 1, sM, dOne dM⟩)
    (hmag : ∀ e ∈ tbl, (env.reg (e.1)).mag = some 1)
    (hsum : (tbl.map (fun e => e.2.1)).sum = 100) :
    split_gas_mixture env (qsmul (env.reg M) (some 1)) =
      .ok (tbl.map (fun e =>
        qmul (qsdiv (qsmul (qdiv (qsmul (env.reg M) (some 1))
            (env.reg (env.dimName dM))) (some (e.2.1))) (some 100))
          (env.reg (e.1)))) ∧
    fvSum ((tbl.map (fun e =>
        qmul (qsdiv (qsmul (qdiv (qsmul (env.reg M) (some 1))
            (env.reg (env.dimName dM))) (some (e.2.1))) (some 100))
          (env.reg (e.1)))).map Quantity.mag) = some 1 := by
  have hq : (qsmul (env.reg M) (some 1)).dims = dOne dM := by
    rw [hreg]
    rfl
  have hfil : mixtureDimensions env (qsmul (env.reg M) (some 1)) = [dM] :=
    mixtureDimensions_singleton env _ dM hnd hmemd hq (by rw [hname, hlook]; rfl)
  refine ⟨split_gas_mixture_eval env _ dM tbl hfil (by rw [hq, dOne_self])
    (by rw [hname]; exact hlook), ?_⟩
  have hmaps : (tbl.map (fun e =>
        qmul (qsdiv (qsmul (qdiv (qsmul (env.reg M) (some 1))
            (env.reg (env.dimName dM))) (some (e.2.1))) (some 100))
          (env.reg (e.1)))).map Quantity.mag =
      tbl.map (fun e => some (e.2.1 / 100)) := by
    rw [List.map_map]
    refine List.map_congr_left ?_
    intro e he
    simp only [Function.comp_apply, qmul, qsdiv, qsmul, qdiv, hname, hreg,
      hmag e he]
    simp only [fmul, fdiv]
    norm_num
  rw [hmaps]
  unfold fvSum
  rw [fvSum_map_some_div tbl 0, hsum]
  norm_num

/-- Witness for C2: splitting `1 * HFC407a` on the fixture gives the three
constituents with magnitudes summing to 1. -/
theorem claim_C2_witness :
    split_gas_mixture exEnv (qsmul (exEnv.reg ("HFC407a")) (some 1)) =
      .ok ((([(("HFC32"), (20, 0, 0)), (("HFC125"), (40, 0, 0)),
          (("HFC134a"), (40, 0, 0))] : MixtureEntries)).map (fun e =>
        qmul (qsdiv (qsmul (qdiv (qsmul (exEnv.reg ("HFC407a")) (some 1))
            (exEnv.reg (exEnv.dimName 6))) (some (e.2.1))) (some 100))
          (exEnv.reg (e.1)))) ∧
    fvSum (((([(("HFC32"), (20, 0, 0)), (("HFC125"), (40, 0, 0)),
          (("HFC134a"), (40, 0, 0))] : MixtureEntries)).map (fun e =>
        qmul (qsdiv (qsmul (qdiv (qsmul (exEnv.reg ("HFC407a")) (some 1))
            (exEnv.reg (exEnv.dimName 6))) (some (e.2.1))) (some 100))
          (exEnv.reg (e.1)))).map Quantity.mag) = some 1 :=
  claim_C2 exEnv ("HFC407a") 6 1 _ (by decide) (by decide) (by decide)
    (by decide) (by decide) (by decide) (by norm_num)

/-- Value of a forward transformation followed by the closing plain
conversion: quantity of dimension `dA`, target of dimension `dB`. -/
theorem toPlain_fwdApply {δ : Type} [DecidableEq δ] [Fintype δ] {dA dB : δ}
    (hAB : dA ≠ dB) (m sA sB s mt st c : ℚ)
    (hsA : sA ≠ 0) (hst : st ≠ 0) :
    toPlain (Trans.apply ⟨dOne dA, dOne dB, true, ⟨some 1, sA, dOne dA⟩,
        ⟨some 1, sB, dOne dB⟩, some c⟩ ⟨some m, s, dOne dA⟩)
      ⟨some mt, st, dOne dB⟩ =
      .ok ⟨some (m * c * s * sB / (sA * st)), st, dOne dB⟩ := by
  unfold toPlain
  rw [if_pos (show (Trans.apply _ _).dims = _ by
    simp only [Trans.apply, qsmul, qsdiv, qmul, qdiv, if_true]
    abel)]
  simp only [Trans.apply, qsmul, qsdiv, qmul, qdiv, if_true, fmul, fdiv,
    Except.ok.injEq, Quantity.mk.injEq]
  refine ⟨?_, trivial, trivial⟩
  congr 1
  field_simp
  ring

/-- Value of a backward transformation followed by the closing plain
conversion: quantity of dimension `dB`, target of dimension `dA`. -/
theorem toPlain_bwdApply {δ : Type} [DecidableEq δ] [Fintype δ] {dA dB : δ}
    (hAB : dA ≠ dB) (m sA sB s mt st c : ℚ)
    (hsB : sB ≠ 0) (hst : st ≠ 0) (hc : c ≠ 0) :
    toPlain (Trans.apply ⟨dOne dB, dOne dA, false, ⟨some 1, sA, dOne dA⟩,
        ⟨some 1, sB, dOne dB⟩, some c⟩ ⟨some m, s, dOne dB⟩)
      ⟨some mt, st, dOne dA⟩ =
      .ok ⟨some (m * s * sA / (c * sB * st)), st, dOne dA⟩ := by
  unfold toPlain
  rw [if_pos (show (Trans.apply _ _).dims = _ by
    simp only [Trans.apply, qsmul, qsdiv, qmul, qdiv, Bool.false_eq_true, if_false]
    abel)]
  simp only [Trans.apply, qsmul, qsdiv, qmul, qdiv, Bool.false_eq_true, if_false,
    fmul, fdiv, Except.ok.injEq, Quantity.mk.injEq]
  refine ⟨?_, trivial, trivial⟩
  congr 1
  field_simp
  ring

/-- C6: with no context active `registry("CH4").to("C")` raises a
dimensionality error; within the `CH4_conversions` context it has magnitude
`12/16`; and because CO2 is defined as `12/44 * C`, the transitive
conversion `registry("CH4").to("CO2")` is also permitted under the same
context (yielding `44/16` CO2) — the transitivity is preserved, not
suppressed. -/
theorem claim_C6 {δ : Type} [DecidableEq δ] [Fintype δ] (env : Env δ)
    (dMethane : δ)
    (hCH4 : env.reg ("CH4") = ⟨some 1, 1, dOne dMethane⟩)
    (hC : env.reg ("C") = ⟨some 1, 1, dOne env.dCarbon⟩)
    (hCO2 : env.reg ("CO2") = ⟨some 1, 12 / 44, dOne env.dCarbon⟩)
    (h1 : dMethane ≠ env.dCarbon) (h2 : dMethane ≠ env.dMass)
    (h3 : dMethane ≠ env.dTime) (h4 : env.dCarbon ≠ env.dMass)
    (h5 : env.dCarbon ≠ env.dTime) (h6 : env.dMass ≠ env.dTime) :
    toPlain (env.reg ("CH4")) (env.reg ("C")) =
      .error ⟨dOne dMethane, dOne env.dCarbon⟩ ∧
    toCtx (ch4Context env dMethane) (env.reg ("CH4")) (env.reg ("C")) =
      .ok ⟨some (12 / 16), 1, dOne env.dCarbon⟩ ∧
    toCtx (ch4Context env dMethane) (env.reg ("CH4")) (env.reg ("CO2")) =
      .ok ⟨some (44 / 16), 12 / 44, dOne env.dCarbon⟩ := by
  refine ⟨?_, ?_, ?_⟩
  · rw [hCH4, hC]
    unfold toPlain
    dsimp only
    rw [if_neg (dOne_ne_dOne h1)]
  · unfold ch4Context
    rw [hCH4, hC]
    rw [toCtx_atc_fwd h1 h4 h5 h6 _ _ _ _ _ _ rfl rfl]
    rw [toPlain_fwdApply h1 1 1 1 1 1 1 (12 / 16) one_ne_zero one_ne_zero]
    norm_num
  · unfold ch4Context
    rw [hCH4, hC, hCO2]
    rw [toCtx_atc_fwd h1 h4 h5 h6 _ _ _ _ _ _ rfl rfl]
    rw [toPlain_fwdApply h1 1 1 1 1 1 (12 / 44) (12 / 16) one_ne_zero (by norm_num)]
    norm_num

/-- Witness for C6 on the fixture environment (`[methane]` is tag 3). -/
theorem claim_C6_witness :
    (exEnv.reg ("CH4") = ⟨some 1, 1, dOne 3⟩ ∧
      exEnv.reg ("C") = ⟨some 1, 1, dOne exEnv.dCarbon⟩ ∧
      exEnv.reg ("CO2") = ⟨some 1, 12 / 44, dOne exEnv.dCarbon⟩) ∧
    toPlain (exEnv.reg ("CH4")) (exEnv.reg ("C")) =
      .error ⟨dOne 3, dOne exEnv.dCarbon⟩ ∧
    toCtx (ch4Context exEnv 3) (exEnv.reg ("CH4")) (exEnv.reg ("C")) =
      .ok ⟨some (12 / 16), 1, dOne exEnv.dCarbon⟩ ∧
    toCtx (ch4Context exEnv 3) (exEnv.reg ("CH4")) (exEnv.reg ("CO2")) =
      .ok ⟨some (44 / 16), 12 / 44, dOne exEnv.dCarbon⟩ :=
  ⟨⟨rfl, rfl, rfl⟩,
    claim_C6 exEnv 3 rfl rfl rfl (by decide) (by decide)
      (by decide) (by decide) (by decide) (by decide)⟩

/-- C4: `_add_gwp_to_context` registers, between the species' base dimension
tag and `[carbon]`, the conversion value
`conv_val = factor * magnitude(CO2 in base units) / magnitude(species in
base units)`; and on the fixture the synthesized mixture factor of HFC407a
is the weighted sum of its constituents' AR4GWP100 factors, so
`(1 * registry("HFC407a")).to("CO2", "AR4GWP100")` has magnitude exactly
2107 (within the claim's ±0.5). -/
theorem claim_C4 {δ : Type} [DecidableEq δ] [Fintype δ] :
    (∀ (env : Env δ) (ctx : List (Trans δ)) (label : String) (f sL sCO2 : ℚ)
      (dL : δ),
      env.reg label = ⟨some 1, sL, dOne dL⟩ →
      env.reg ("CO2") = ⟨some 1, sCO2, dOne env.dCarbon⟩ →
      pickDim env.allDims ((env.reg label).dims) = some dL →
      dL ≠ env.dCarbon → env.dCarbon ≠ env.dMass → env.dCarbon ≠ env.dTime →
      env.dMass ≠ env.dTime →
      lookupTrans (addGwpToContext env ctx label (some f)) (dOne dL)
          (dOne env.dCarbon) =
        some ⟨dOne dL, dOne env.dCarbon, true, env.reg (env.dimName dL),
          env.reg ("carbon"), some (f * sCO2 / sL)⟩) ∧
    toCtx (addMetricConversionsCol exEnv ar4Col)
        (qsmul (exEnv.reg ("HFC407a")) (some 1)) (exEnv.reg ("CO2")) =
      .ok ⟨some 2107, 12 / 44, dOne 0⟩ := by
  constructor
  · intro env ctx label f sL sCO2 dL hlabel hCO2 hpick hAB hBM hBT hMT
    have hcv : fdiv (fmul (some f) (qToBaseMag (env.reg ("CO2"))))
        (qToBaseMag (env.reg label)) = some (f * sCO2 / sL) := by
      rw [hCO2, hlabel]
      simp [qToBaseMag, fmul, fdiv]
    unfold addGwpToContext
    rw [hpick]
    dsimp only
    rw [hcv]
    exact lookupTrans_atc_fwd hAB hBM hBT hMT ctx _ _ _
  · have h400 : ∀ c : List (Trans (Fin 13)),
        addMixtureGwp exEnv ar4Col c ("CFC400") = c := fun c => rfl
    have h423 : ∀ c : List (Trans (Fin 13)),
        addMixtureGwp exEnv ar4Col c ("HFC423a") = c := fun c => rfl
    have hmw : ∃ v : ℚ,
        (∀ c : List (Trans (Fin 13)), addMixtureGwp exEnv ar4Col c ("HFC407a") =
          addGwpToContext exEnv c ("HFC407a") (some v)) ∧ v = 2107 :=
      ⟨_, fun c => rfl, by norm_num⟩
    obtain ⟨v, hmw, hv⟩ := hmw
    have hctx : addMetricConversionsCol exEnv ar4Col =
        addGwpToContext exEnv
          (ar4Col.foldl (fun c p => addGwpToContext exEnv c p.1 p.2) [])
          ("HFC407a") (some v) := by
      have hstep : addMetricConversionsCol exEnv ar4Col =
          addMixtureGwp exEnv ar4Col (addMixtureGwp exEnv ar4Col
            (addMixtureGwp exEnv ar4Col
              (ar4Col.foldl (fun c p => addGwpToContext exEnv c p.1 p.2) [])
              ("CFC400")) ("HFC407a")) ("HFC423a") := rfl
      rw [hstep, h400, hmw, h423]
    rw [hctx]
    generalize (ar4Col.foldl (fun c p => addGwpToContext exEnv c p.1 p.2)
      ([] : List (Trans (Fin 13)))) = ctx1
    have hpick : pickDim exEnv.allDims ((exEnv.reg ("HFC407a")).dims) =
        some 6 := rfl
    unfold addGwpToContext
    rw [hpick]
    dsimp only
    have hconv : fdiv (fmul (some v) (qToBaseMag (exEnv.reg ("CO2"))))
        (qToBaseMag (exEnv.reg ("HFC407a"))) =
        some (v * (1 * (12 / 44)) / (1 * 1)) := rfl
    rw [hconv]
    have hqq : qsmul (exEnv.reg ("HFC407a")) (some 1) =
        (⟨some (1 * 1), 1, dOne 6⟩ : Quantity (Fin 13)) := rfl
    have hbase : exEnv.reg (exEnv.dimName 6) =
        (⟨some 1, 1, dOne 6⟩ : Quantity (Fin 13)) := rfl
    have hcarb : exEnv.reg ("carbon") =
        (⟨some 1, 1, dOne 0⟩ : Quantity (Fin 13)) := rfl
    have hco2 : exEnv.reg ("CO2") =
        (⟨some 1, 12 / 44, dOne 0⟩ : Quantity (Fin 13)) := rfl
    rw [toCtx_atc_fwd (by decide) (by decide) (by decide) (by decide)
      ctx1 _ _ _ _ _ rfl rfl]
    rw [hqq, hbase, hcarb, hco2, show exEnv.dCarbon = (0 : Fin 13) from rfl]
    rw [toPlain_fwdApply (show (6 : Fin 13) ≠ 0 by decide) (1 * 1) 1 1 1 1 (12 / 44)
      (v * (1 * (12 / 44)) / (1 * 1)) one_ne_zero (by norm_num)]
    rw [hv]
    norm_num

/-- Witness for C4: the generic registration formula instantiated on the
fixture for the CH4 row of the AR4 column (factor 25, CO2 scale 12/44,
methane scale 1), applied by the theorem itself. -/
theorem claim_C4_witness :
    lookupTrans (addGwpToContext exEnv [] ("CH4") (some 25)) (dOne 3)
        (dOne exEnv.dCarbon) =
      some ⟨dOne 3, dOne exEnv.dCarbon, true, exEnv.reg (exEnv.dimName 3),
        exEnv.reg ("carbon"), some (25 * (12 / 44) / 1)⟩ :=
  (claim_C4 (δ := Fin 13)).1 exEnv [] ("CH4") 25 1 (12 / 44) 3 rfl rfl rfl
    (by decide) (by decide) (by decide) (by decide)

/-- A forward transformation whose conversion value is NaN followed by the
closing plain conversion: the NaN magnitude propagates to the result. -/
theorem toPlain_fwdApply_nan {δ : Type} [DecidableEq δ] [Fintype δ]
    {dA dB : δ} (m sA sB s st : ℚ) (mt : FV) :
    toPlain (Trans.apply ⟨dOne dA, dOne dB, true, ⟨some 1, sA, dOne dA⟩,
        ⟨some 1, sB, dOne dB⟩, none⟩ ⟨some m, s, dOne dA⟩)
      ⟨mt, st, dOne dB⟩ =
      .ok ⟨none, st, dOne dB⟩ := by
  unfold toPlain
  rw [if_pos (show (Trans.apply _ _).dims = _ by
    simp only [Trans.apply, qsmul, qsdiv, qmul, qdiv, if_true]
    abel)]
  simp only [Trans.apply, qsmul, qsdiv, qmul, qdiv, if_true, fmul, fdiv]

theorem dimsKeys_dOne {δ : Type} [DecidableEq δ] {allDims : List δ} {dM : δ}
    (hnd : allDims.Nodup) (hmem : dM ∈ allDims) :
    dimsKeys allDims (dOne dM) = [dM] := by
  refine filter_eq_singleton_of_unique hnd hmem ?_
  intro x
  simp only [bne_iff_ne, ne_eq]
  constructor
  · intro h
    by_contra hne
    exact h (dOne_apply_ne hne)
  · rintro rfl
    rw [dOne_self]
    decide

theorem pickDim_dOne {δ : Type} [DecidableEq δ] {allDims : List δ} {dM : δ}
    (hnd : allDims.Nodup) (hmem : dM ∈ allDims) :
    pickDim allDims (dOne dM) = some dM := by
  unfold pickDim
  rw [dimsKeys_dOne hnd hmem]
  rfl

/-- In a context built by `_add_transformations_to_context` from dimensions
that all avoid the tag `dM`, every transformation's source dimensionality
still has exponent 0 at `dM`. -/
theorem atc_src_pres {δ : Type} [DecidableEq δ] {dM dMass dTime : δ}
    (hM : dM ≠ dMass) (hT : dM ≠ dTime)
    {ctx : List (Trans δ)} {b o : δ → ℤ} {qb qo : Quantity δ} {c : FV}
    (hb : b dM = 0) (ho : o dM = 0)
    (hctx : ∀ t ∈ ctx, t.src dM = 0) :
    ∀ t ∈ addTransformationsToContext dMass dTime ctx b qb o qo c,
      t.src dM = 0 := by
  intro t ht
  rw [addTransformationsToContext_eq] at ht
  rcases List.mem_append.1 ht with h | h
  · exact hctx t h
  · have hm0 : dOne dMass dM = (0 : ℤ) := dOne_apply_ne hM
    have ht0 : dOne dTime dM = (0 : ℤ) := dOne_apply_ne hT
    simp only [List.mem_cons, List.not_mem_nil, or_false] at h
    rcases h with rfl | rfl | rfl | rfl | rfl | rfl | rfl | rfl <;>
      simp [Pi.add_apply, Pi.sub_apply, hb, ho, hm0, ht0]

theorem addGwp_src_pres {δ : Type} [DecidableEq δ] [Fintype δ] {env : Env δ}
    {dM : δ} (hC : dM ≠ env.dCarbon) (hM : dM ≠ env.dMass)
    (hT : dM ≠ env.dTime) {ctx : List (Trans δ)} {label : String} {val : FV}
    (hlab : ∀ d, pickDim env.allDims ((env.reg label).dims) = some d → d ≠ dM)
    (hctx : ∀ t ∈ ctx, t.src dM = 0) :
    ∀ t ∈ addGwpToContext env ctx label val, t.src dM = 0 := by
  unfold addGwpToContext
  rcases hp : pickDim env.allDims ((env.reg label).dims) with _ | dL
  · dsimp only
    exact hctx
  · dsimp only
    exact atc_src_pres hM hT (dOne_apply_ne (Ne.symm (hlab dL hp)))
      (dOne_apply_ne hC) hctx

theorem foldRows_src_pres {δ : Type} [DecidableEq δ] [Fintype δ] {env : Env δ}
    {dM : δ} (hC : dM ≠ env.dCarbon) (hM : dM ≠ env.dMass)
    (hT : dM ≠ env.dTime) (col : List (String × FV))
    (hall : ∀ p ∈ col, ∀ d,
      pickDim env.allDims ((env.reg p.1).dims) = some d → d ≠ dM) :
    ∀ ctx0, (∀ t ∈ ctx0, t.src dM = 0) →
      ∀ t ∈ col.foldl (fun c p => addGwpToContext env c p.1 p.2) ctx0,
        t.src dM = 0 := by
  induction col with
  | nil => intro ctx0 h0; exact h0
  | cons p ps ih =>
    intro ctx0 h0
    rw [List.foldl_cons]
    exact ih (fun r hr => hall r (List.mem_cons_of_mem _ hr))
      (addGwpToContext env ctx0 p.1 p.2)
      (addGwp_src_pres hC hM hT (hall p (List.mem_cons_self _ _)) h0)

theorem addMixtureGwp_src_pres {δ : Type} [DecidableEq δ] [Fintype δ]
    {env : Env δ} {dM : δ} (hC : dM ≠ env.dCarbon) (hM : dM ≠ env.dMass)
    (hT : dM ≠ env.dTime) {col : List (String × FV)} {name : String}
    (hname : (∀ ctx, addMixtureGwp env col ctx name = ctx) ∨
      (∀ d, pickDim env.allDims ((env.reg name).dims) = some d → d ≠ dM))
    {ctx : List (Trans δ)} (hctx : ∀ t ∈ ctx, t.src dM = 0) :
    ∀ t ∈ addMixtureGwp env col ctx name, t.src dM = 0 := by
  rcases hname with hskip | hpick
  · rw [hskip ctx]
    exact hctx
  · unfold addMixtureGwp
    rcases split_gas_mixture env (qsmul (env.reg name) (some 1)) with _ | cs
    · exact hctx
    · dsimp only
      by_cases hcond : (((env.MIX.lookup name).getD []).map (fun e => e.1)).all
          (fun n => (col.lookup n).isSome) = true
      · rw [if_pos hcond]
        by_cases hnan : fisnan ((cs.zip (((env.MIX.lookup name).getD []).map
            (fun e => e.1))).foldl (fun acc p => fadd acc (fmul p.1.mag
              ((col.lookup p.2).getD none))) (some 0)) = true
        · rw [if_pos hnan]
          exact hctx
        · rw [if_neg hnan]
          exact addGwp_src_pres hC hM hT hpick hctx
      · rw [if_neg hcond]
        exact hctx

theorem foldMix_src_pres {δ : Type} [DecidableEq δ] [Fintype δ] {env : Env δ}
    {dM : δ} (hC : dM ≠ env.dCarbon) (hM : dM ≠ env.dMass)
    (hT : dM ≠ env.dTime) {col : List (String × FV)} (names : List String)
    (hnames : ∀ name ∈ names,
      (∀ ctx, addMixtureGwp env col ctx name = ctx) ∨
      (∀ d, pickDim env.allDims ((env.reg name).dims) = some d → d ≠ dM)) :
    ∀ ctx0, (∀ t ∈ ctx0, t.src dM = 0) →
      ∀ t ∈ names.foldl (fun c n => addMixtureGwp env col c n) ctx0,
        t.src dM = 0 := by
  induction names with
  | nil => intro ctx0 h0; exact h0
  | cons n ns ih =>
    intro ctx0 h0
    rw [List.foldl_cons]
    exact ih (fun r hr => hnames r (List.mem_cons_of_mem _ hr))
      (addMixtureGwp env col ctx0 n)
      (addMixtureGwp_src_pres hC hM hT (hnames n (List.mem_cons_self _ _)) h0)

theorem lookupTrans_eq_none {δ : Type} [DecidableEq δ] [Fintype δ]
    {ctx : List (Trans δ)} {s d : δ → ℤ} (h : ∀ t ∈ ctx, ¬(t.src = s)) :
    lookupTrans ctx s d = none := by
  induction ctx with
  | nil => rfl
  | cons t ts ih =>
    show List.foldl _ _ _ = none
    simp only [List.foldl_cons]
    rw [if_neg (fun hc => h t (List.mem_cons_self _ _) hc.1)]
    exact ih (fun r hr => h r (List.mem_cons_of_mem _ hr))

/-- Evaluation of one iteration of the mixture loop for a well-formed
mixture: the split succeeds and the iteration reduces to the
row-availability test, the NaN test and the registration. -/
theorem addMixtureGwp_eq {δ : Type} [DecidableEq δ] [Fintype δ] (env : Env δ)
    (col : List (String × FV)) (ctx : List (Trans δ)) (m : String) (dM : δ)
    (sM : ℚ) (tbl : MixtureEntries)
    (hnd : env.allDims.Nodup) (hmemd : dM ∈ env.allDims)
    (hlookm : env.MIX.lookup m = some tbl)
    (hname : env.dimName dM = m)
    (hregm : env.reg m = ⟨some 1, sM, dOne dM⟩) :
    addMixtureGwp env col ctx m =
      if (tbl.map (fun e => e.1)).all (fun n => (col.lookup n).isSome) then
        (if fisnan (mixtureVal env col m dM tbl) = true then ctx
         else addGwpToContext env ctx m (mixtureVal env col m dM tbl))
      else ctx := by
  have hq : (qsmul (env.reg m) (some 1)).dims = dOne dM := by
    rw [hregm]
    rfl
  have hfil : mixtureDimensions env (qsmul (env.reg m) (some 1)) = [dM] :=
    mixtureDimensions_singleton env _ dM hnd hmemd hq
      (by rw [hname, hlookm]; rfl)
  unfold addMixtureGwp
  rw [split_gas_mixture_eval env _ dM tbl hfil (by rw [hq, dOne_self])
    (by rw [hname]; exact hlookm)]
  dsimp only
  rw [hlookm, Option.getD_some]
  rfl

theorem addMixtureGwp_skip_missing {δ : Type} [DecidableEq δ] [Fintype δ]
    (env : Env δ) (col : List (String × FV)) (m : String) (dM : δ) (sM : ℚ)
    (tbl : MixtureEntries)
    (hnd : env.allDims.Nodup) (hmemd : dM ∈ env.allDims)
    (hlookm : env.MIX.lookup m = some tbl) (hname : env.dimName dM = m)
    (hregm : env.reg m = ⟨some 1, sM, dOne dM⟩)
    (hP : (tbl.map (fun e => e.1)).all (fun n => (col.lookup n).isSome) = false) :
    ∀ ctx, addMixtureGwp env col ctx m = ctx := by
  intro ctx
  rw [addMixtureGwp_eq env col ctx m dM sM tbl hnd hmemd hlookm hname hregm]
  rw [if_neg (by simp [hP])]

theorem addMixtureGwp_skip_nan {δ : Type} [DecidableEq δ] [Fintype δ]
    (env : Env δ) (col : List (String × FV)) (m : String) (dM : δ) (sM : ℚ)
    (tbl : MixtureEntries)
    (hnd : env.allDims.Nodup) (hmemd : dM ∈ env.allDims)
    (hlookm : env.MIX.lookup m = some tbl) (hname : env.dimName dM = m)
    (hregm : env.reg m = ⟨some 1, sM, dOne dM⟩)
    (hP : (tbl.map (fun e => e.1)).all (fun n => (col.lookup n).isSome) = true)
    (hval : mixtureVal env col m dM tbl = none) :
    ∀ ctx, addMixtureGwp env col ctx m = ctx := by
  intro ctx
  rw [addMixtureGwp_eq env col ctx m dM sM tbl hnd hmemd hlookm hname hregm]
  rw [if_pos hP, hval]
  rw [if_pos (show fisnan none = true from rfl)]

theorem addMixtureGwp_synth {δ : Type} [DecidableEq δ] [Fintype δ]
    (env : Env δ) (col : List (String × FV)) (m : String) (dM : δ) (sM : ℚ)
    (tbl : MixtureEntries)
    (hnd : env.allDims.Nodup) (hmemd : dM ∈ env.allDims)
    (hlookm : env.MIX.lookup m = some tbl) (hname : env.dimName dM = m)
    (hregm : env.reg m = ⟨some 1, sM, dOne dM⟩) (v : ℚ)
    (hP : (tbl.map (fun e => e.1)).all (fun n => (col.lookup n).isSome) = true)
    (hval : mixtureVal env col m dM tbl = some v) :
    ∀ ctx, addMixtureGwp env col ctx m = addGwpToContext env ctx m (some v) := by
  intro ctx
  rw [addMixtureGwp_eq env col ctx m dM sM tbl hnd hmemd hlookm hname hregm]
  rw [if_pos hP, hval]
  rw [if_neg (by simp [fisnan])]

theorem addGwp_ne_ctx {δ : Type} [DecidableEq δ] [Fintype δ] (env : Env δ)
    (ctx : List (Trans δ)) (m : String) (dM : δ) (val : FV)
    (hpickm : pickDim env.allDims ((env.reg m).dims) = some dM) :
    addGwpToContext env ctx m val ≠ ctx := by
  unfold addGwpToContext
  rw [hpickm]
  dsimp only
  intro he
  have hlen := congrArg List.length he
  rw [addTransformationsToContext_eq] at hlen
  simp at hlen

theorem fmul_none_right (a : FV) : fmul a none = none := by
  cases a <;> rfl

theorem fadd_none_right (a : FV) : fadd a none = none := by
  cases a <;> rfl

theorem foldl_fadd_from_none {α : Type} (f : α → FV) (l : List α) :
    l.foldl (fun acc x => fadd acc (f x)) none = none := by
  induction l with
  | nil => rfl
  | cons x xs ih =>
    rw [List.foldl_cons, show fadd none (f x) = none from rfl]
    exact ih

theorem foldl_fadd_none {α : Type} (f : α → FV) (l : List α) :
    ∀ a : FV, (∃ e ∈ l, f e = none) →
      l.foldl (fun acc x => fadd acc (f x)) a = none := by
  induction l with
  | nil =>
    intro a h
    rcases h with ⟨e, he, _⟩
    simp at he
  | cons x xs ih =>
    intro a h
    simp only [List.foldl_cons]
    rcases h with ⟨e, he, hfe⟩
    rcases List.mem_cons.1 he with rfl | hmem
    · rw [hfe, fadd_none_right]
      exact foldl_fadd_from_none f xs
    · exact ih _ ⟨e, hmem, hfe⟩

/-- A constituent whose metric cell is present but NaN forces the derived
mixture factor `sum(c.magnitude * metric_conversion[str(c.units)] ...)` to
NaN. -/
theorem mixtureVal_none_of_nan_cell {δ : Type} [DecidableEq δ] [Fintype δ]
    (env : Env δ) (col : List (String × FV)) (m : String) (dM : δ)
    (tbl : MixtureEntries)
    (hcell : ∃ e ∈ tbl, col.lookup e.1 = some none) :
    mixtureVal env col m dM tbl = none := by
  unfold mixtureVal
  rw [List.zip_map', List.foldl_map]
  rcases hcell with ⟨e, he, hc⟩
  refine foldl_fadd_none _ tbl (some 0) ⟨e, he, ?_⟩
  dsimp only
  rw [hc, Option.getD_some, fmul_none_right]

/-- Appending form of `_add_transformations_to_context`: the context grows
by the block the call would emit from an empty context. -/
theorem atc_append {δ : Type} [DecidableEq δ] (dMass dTime : δ)
    (ctx : List (Trans δ)) (b : δ → ℤ) (qb : Quantity δ) (o : δ → ℤ)
    (qo : Quantity δ) (c : FV) :
    addTransformationsToContext dMass dTime ctx b qb o qo c =
      ctx ++ addTransformationsToContext dMass dTime [] b qb o qo c := by
  rw [addTransformationsToContext_eq, addTransformationsToContext_eq,
    List.nil_append]

theorem lookupTrans_foldl_const {δ : Type} [DecidableEq δ] [Fintype δ]
    (ext : List (Trans δ)) (s d : δ → ℤ) :
    ∀ acc : Option (Trans δ), (∀ t ∈ ext, ¬(t.src = s)) →
      ext.foldl (fun acc t => if t.src = s ∧ t.dst = d then some t else acc)
        acc = acc := by
  induction ext with
  | nil => intro acc _; rfl
  | cons t ts ih =>
    intro acc h
    simp only [List.foldl_cons]
    rw [if_neg (fun hc => h t (List.mem_cons_self _ _) hc.1)]
    exact ih acc (fun r hr => h r (List.mem_cons_of_mem _ hr))

/-- Registrations appended after a context never shadow a lookup whose
source dimensionality none of them carries. -/
theorem lookupTrans_append_none {δ : Type} [DecidableEq δ] [Fintype δ]
    (ctx ext : List (Trans δ)) (s d : δ → ℤ)
    (h : ∀ t ∈ ext, ¬(t.src = s)) :
    lookupTrans (ctx ++ ext) s d = lookupTrans ctx s d := by
  unfold lookupTrans
  rw [List.foldl_append]
  exact lookupTrans_foldl_const ext s d _ h

/-- `_add_gwp_to_context` only appends, and every appended transformation's
source dimensionality avoids any tag `dM` distinct from the species tag,
`[carbon]`, `[mass]` and `[time]`. -/
theorem addGwp_suffix {δ : Type} [DecidableEq δ] [Fintype δ] {env : Env δ}
    {dM : δ} (hC : dM ≠ env.dCarbon) (hM : dM ≠ env.dMass)
    (hT : dM ≠ env.dTime) (ctx : List (Trans δ)) (label : String) (val : FV)
    (hlab : ∀ d, pickDim env.allDims ((env.reg label).dims) = some d → d ≠ dM) :
    ∃ extra, addGwpToContext env ctx label val = ctx ++ extra ∧
      ∀ t ∈ extra, t.src dM = 0 := by
  unfold addGwpToContext
  rcases hp : pickDim env.allDims ((env.reg label).dims) with _ | dL
  · dsimp only
    exact ⟨[], (List.append_nil ctx).symm, by simp⟩
  · dsimp only
    exact ⟨addTransformationsToContext env.dMass env.dTime []
        (dOne dL) (env.reg (env.dimName dL)) (dOne env.dCarbon)
        (env.reg ("carbon"))
        (fdiv (fmul val (qToBaseMag (env.reg ("CO2"))))
          (qToBaseMag (env.reg label))),
      atc_append env.dMass env.dTime ctx (dOne dL) (env.reg (env.dimName dL))
        (dOne env.dCarbon) (env.reg ("carbon")) _,
      @atc_src_pres δ _ dM env.dMass env.dTime hM hT []
        (dOne dL) (dOne env.dCarbon) (env.reg (env.dimName dL))
        (env.reg ("carbon")) _
        (dOne_apply_ne (Ne.symm (hlab dL hp))) (dOne_apply_ne hC) (by simp)⟩

/-- One mixture-loop iteration only appends, and — when the mixture either
skips or carries a tag other than `dM` — nothing it appends has source
dimensionality touching `dM`. -/
theorem addMixtureGwp_suffix {δ : Type} [DecidableEq δ] [Fintype δ]
    {env : Env δ} {dM : δ} (hC : dM ≠ env.dCarbon) (hM : dM ≠ env.dMass)
    (hT : dM ≠ env.dTime) {col : List (String × FV)} {name : String}
    (hname : (∀ ctx, addMixtureGwp env col ctx name = ctx) ∨
      (∀ d, pickDim env.allDims ((env.reg name).dims) = some d → d ≠ dM)) :
    ∀ ctx, ∃ extra, addMixtureGwp env col ctx name = ctx ++ extra ∧
      ∀ t ∈ extra, t.src dM = 0 := by
  intro ctx
  rcases hname with hskip | hpick
  · exact ⟨[], by rw [hskip ctx, List.append_nil], by simp⟩
  · unfold addMixtureGwp
    rcases split_gas_mixture env (qsmul (env.reg name) (some 1)) with _ | cs
    · exact ⟨[], (List.append_nil ctx).symm, by simp⟩
    · dsimp only
      by_cases hcond : (((env.MIX.lookup name).getD []).map (fun e => e.1)).all
          (fun n => (col.lookup n).isSome) = true
      · rw [if_pos hcond]
        by_cases hnan : fisnan ((cs.zip (((env.MIX.lookup name).getD []).map
            (fun e => e.1))).foldl (fun acc p => fadd acc (fmul p.1.mag
              ((col.lookup p.2).getD none))) (some 0)) = true
        · rw [if_pos hnan]
          exact ⟨[], (List.append_nil ctx).symm, by simp⟩
        · rw [if_neg hnan]
          exact addGwp_suffix hC hM hT ctx name _ hpick
      · rw [if_neg hcond]
        exact ⟨[], (List.append_nil ctx).symm, by simp⟩

/-- The whole mixture loop only appends; under the per-mixture condition of
`addMixtureGwp_suffix` nothing appended touches `dM`. -/
theorem foldMix_suffix {δ : Type} [DecidableEq δ] [Fintype δ] {env : Env δ}
    {dM : δ} (hC : dM ≠ env.dCarbon) (hM : dM ≠ env.dMass)
    (hT : dM ≠ env.dTime) {col : List (String × FV)} (names : List String)
    (hnames : ∀ name ∈ names,
      (∀ ctx, addMixtureGwp env col ctx name = ctx) ∨
      (∀ d, pickDim env.allDims ((env.reg name).dims) = some d → d ≠ dM)) :
    ∀ ctx0, ∃ extra,
      names.foldl (fun c n => addMixtureGwp env col c n) ctx0 = ctx0 ++ extra ∧
      ∀ t ∈ extra, t.src dM = 0 := by
  induction names with
  | nil =>
    intro ctx0
    exact ⟨[], (List.append_nil ctx0).symm, by simp⟩
  | cons n ns ih =>
    intro ctx0
    simp only [List.foldl_cons]
    obtain ⟨e1, he1, hp1⟩ :=
      addMixtureGwp_suffix hC hM hT (hnames n (List.mem_cons_self _ _)) ctx0
    obtain ⟨e2, he2, hp2⟩ :=
      ih (fun r hr => hnames r (List.mem_cons_of_mem _ hr))
        (addMixtureGwp env col ctx0 n)
    refine ⟨e1 ++ e2, ?_, ?_⟩
    · rw [he2, he1, List.append_assoc]
    · intro t ht
      rcases List.mem_append.1 ht with h | h
      · exact hp1 t h
      · exact hp2 t h

/-- C7 (amended): a NaN cell of the metric table is never treated as the
factor 1; in the mixture loop a NaN constituent cell makes the derived
factor NaN, so the mixture is skipped (its loop iteration returns the
context unchanged); but for a directly tabulated species the row is NOT
treated as absent: `_add_gwp_to_context` is still called with the NaN
value, so a transformation with NaN conversion value is registered — even
with the mixture loop running over an arbitrary mixtures table afterwards —
and converting the species to CO2 under the metric yields a NaN magnitude,
whereas a species with no row at all has no transformation and the
conversion raises a dimensionality error. -/
theorem claim_C7 {δ : Type} [DecidableEq δ] [Fintype δ] (env : Env δ)
    (label m : String) (sL sBase sCarb sCO2 sM : ℚ) (dL dM : δ)
    (tbl : MixtureEntries) (colM : List (String × FV))
    (hnd : env.allDims.Nodup) (hmemd : dM ∈ env.allDims)
    (hlookm : env.MIX.lookup m = some tbl) (hnameM : env.dimName dM = m)
    (hregm : env.reg m = ⟨some 1, sM, dOne dM⟩)
    (hcell : ∃ e ∈ tbl, colM.lookup e.1 = some none)
    (hlabel : env.reg label = ⟨some 1, sL, dOne dL⟩)
    (hbase : env.reg (env.dimName dL) = ⟨some 1, sBase, dOne dL⟩)
    (hcarb : env.reg ("carbon") = ⟨some 1, sCarb, dOne env.dCarbon⟩)
    (hCO2 : env.reg ("CO2") = ⟨some 1, sCO2, dOne env.dCarbon⟩)
    (hpick : pickDim env.allDims ((env.reg label).dims) = some dL)
    (hAB : dL ≠ env.dCarbon) (hLM : dL ≠ env.dMass) (hLT : dL ≠ env.dTime)
    (hBM : env.dCarbon ≠ env.dMass) (hBT : env.dCarbon ≠ env.dTime)
    (hMT : env.dMass ≠ env.dTime)
    (hmixes1 : ∀ name ∈ env.MIX.map (fun e => e.1),
      (∀ ctx, addMixtureGwp env [(label, none)] ctx name = ctx) ∨
      (∀ d, pickDim env.allDims ((env.reg name).dims) = some d → d ≠ dL))
    (hmixes2 : ∀ name ∈ env.MIX.map (fun e => e.1),
      (∀ ctx, addMixtureGwp env ([] : List (String × FV)) ctx name = ctx) ∨
      (∀ d, pickDim env.allDims ((env.reg name).dims) = some d → d ≠ dL)) :
    (∀ ctx, addMixtureGwp env colM ctx m = ctx) ∧
    lookupTrans (addMetricConversionsCol env [(label, none)]) (dOne dL)
        (dOne env.dCarbon) =
      some ⟨dOne dL, dOne env.dCarbon, true, env.reg (env.dimName dL),
        env.reg ("carbon"), none⟩ ∧
    toCtx (addMetricConversionsCol env [(label, none)])
        (qsmul (env.reg label) (some 1)) (env.reg ("CO2")) =
      .ok ⟨none, sCO2, dOne env.dCarbon⟩ ∧
    toCtx (addMetricConversionsCol env ([] : List (String × FV)))
        (qsmul (env.reg label) (some 1)) (env.reg ("CO2")) =
      .error ⟨dOne dL, dOne env.dCarbon⟩ := by
  have hconv : fdiv (fmul none (qToBaseMag (env.reg ("CO2"))))
      (qToBaseMag (env.reg label)) = none := by
    rw [hCO2, hlabel]
    rfl
  have hgwp : addGwpToContext env [] label none =
      addTransformationsToContext env.dMass env.dTime []
        (dOne dL) (env.reg (env.dimName dL)) (dOne env.dCarbon)
        (env.reg ("carbon")) none := by
    unfold addGwpToContext
    rw [hpick]
    dsimp only
    rw [hconv]
  have hrowfold : ([(label, (none : FV))]).foldl
      (fun c p => addGwpToContext env c p.1 p.2) ([] : List (Trans δ)) =
      addGwpToContext env [] label none := rfl
  obtain ⟨extra, hfull, hextra⟩ := foldMix_suffix hAB hLM hLT
    (env.MIX.map (fun e => e.1)) hmixes1 (addGwpToContext env [] label none)
  have hcolctx : addMetricConversionsCol env [(label, none)] =
      addGwpToContext env [] label none ++ extra := by
    unfold addMetricConversionsCol
    dsimp only
    rw [hrowfold]
    exact hfull
  have hnomatch : ∀ t ∈ extra, ¬(t.src = dOne dL) := by
    intro t ht hs
    have h0 := hextra t ht
    rw [hs, dOne_self] at h0
    exact one_ne_zero h0
  have hlk : lookupTrans (addMetricConversionsCol env [(label, none)])
      (dOne dL) (dOne env.dCarbon) =
      some ⟨dOne dL, dOne env.dCarbon, true, env.reg (env.dimName dL),
        env.reg ("carbon"), none⟩ := by
    rw [hcolctx, lookupTrans_append_none _ extra _ _ hnomatch, hgwp]
    exact lookupTrans_atc_fwd hAB hBM hBT hMT [] _ _ _
  have hqd : (qsmul (env.reg label) (some 1)).dims = dOne dL := by
    rw [hlabel]
    rfl
  have htd : (env.reg ("CO2")).dims = dOne env.dCarbon := by
    rw [hCO2]
  refine ⟨?_, hlk, ?_, ?_⟩
  · intro ctx
    by_cases hP : (tbl.map (fun e => e.1)).all
        (fun n => (colM.lookup n).isSome) = true
    · exact addMixtureGwp_skip_nan env colM m dM sM tbl hnd hmemd hlookm
        hnameM hregm hP (mixtureVal_none_of_nan_cell env colM m dM tbl hcell)
        ctx
    · exact addMixtureGwp_skip_missing env colM m dM sM tbl hnd hmemd hlookm
        hnameM hregm (by simpa using hP) ctx
  · have hstep : toCtx (addMetricConversionsCol env [(label, none)])
        (qsmul (env.reg label) (some 1)) (env.reg ("CO2")) =
        toPlain (Trans.apply ⟨dOne dL, dOne env.dCarbon, true,
          env.reg (env.dimName dL), env.reg ("carbon"), none⟩
          (qsmul (env.reg label) (some 1))) (env.reg ("CO2")) := by
      unfold toCtx
      rw [hqd, htd, if_neg (dOne_ne_dOne hAB), hlk]
    rw [hstep, hlabel, hbase, hcarb, hCO2]
    rw [show qsmul (⟨some 1, sL, dOne dL⟩ : Quantity δ) (some 1) =
      (⟨some (1 * 1), sL, dOne dL⟩ : Quantity δ) from rfl]
    exact toPlain_fwdApply_nan (1 * 1) sBase sCarb sL sCO2 (some 1)
  · have inv : ∀ t ∈ addMetricConversionsCol env ([] : List (String × FV)),
        t.src dL = 0 := by
      unfold addMetricConversionsCol
      dsimp only
      exact foldMix_src_pres hAB hLM hLT (env.MIX.map (fun e => e.1))
        hmixes2 (([] : List (String × FV)).foldl
          (fun c p => addGwpToContext env c p.1 p.2) []) (by simp)
    have hnone : lookupTrans
        (addMetricConversionsCol env ([] : List (String × FV)))
        (dOne dL) (dOne env.dCarbon) = none :=
      lookupTrans_eq_none (fun t ht hs => by
        have h0 := inv t ht
        rw [hs, dOne_self] at h0
        exact one_ne_zero h0)
    unfold toCtx
    rw [hqd, htd, if_neg (dOne_ne_dOne hAB), hnone]

/-- Witness for C7 (amended), on the concrete fixture with its full mixtures
table: a column giving HFC407a's constituent HFC134a a NaN cell makes the
HFC407a mixture iteration a no-op; the single-row column with a NaN CH4
cell registers a NaN-conversion transformation for CH4, converting CH4 to
CO2 under it yields a NaN magnitude, and with no CH4 row at all the
conversion raises the dimensionality error carrying tag 3. -/
theorem claim_C7_witness :
    (∀ ctx, addMixtureGwp exEnv
        [(("HFC32"), some 675), (("HFC125"), some 3500), (("HFC134a"), none)]
        ctx ("HFC407a") = ctx) ∧
    lookupTrans (addMetricConversionsCol exEnv [(("CH4"), none)]) (dOne 3)
        (dOne exEnv.dCarbon) =
      some ⟨dOne 3, dOne exEnv.dCarbon, true, exEnv.reg (exEnv.dimName 3),
        exEnv.reg ("carbon"), none⟩ ∧
    toCtx (addMetricConversionsCol exEnv [(("CH4"), none)])
        (qsmul (exEnv.reg ("CH4")) (some 1)) (exEnv.reg ("CO2")) =
      .ok ⟨none, 12 / 44, dOne exEnv.dCarbon⟩ ∧
    toCtx (addMetricConversionsCol exEnv ([] : List (String × FV)))
        (qsmul (exEnv.reg ("CH4")) (some 1)) (exEnv.reg ("CO2")) =
      .error ⟨dOne 3, dOne exEnv.dCarbon⟩ :=
  claim_C7 exEnv ("CH4") ("HFC407a") 1 1 1 (12 / 44) 1 3 6
    [(("HFC32"), (20, 0, 0)), (("HFC125"), (40, 0, 0)),
      (("HFC134a"), (40, 0, 0))]
    [(("HFC32"), some 675), (("HFC125"), some 3500), (("HFC134a"), none)]
    (by decide) (by decide) rfl rfl rfl
    ⟨(("HFC134a"), (40, 0, 0)),
      List.mem_cons_of_mem _ (List.mem_cons_of_mem _ (List.mem_cons_self _ _)),
      rfl⟩
    rfl rfl rfl rfl rfl
    (by decide) (by decide) (by decide) (by decide) (by decide) (by decide)
    (by
      intro name hnm
      simp only [exEnv, exMixtures, List.map_cons, List.map_nil,
        List.mem_cons, List.not_mem_nil, or_false] at hnm
      rcases hnm with rfl | rfl | rfl
      · exact Or.inr (by decide)
      · exact Or.inr (by decide)
      · exact Or.inr (by decide))
    (by
      intro name hnm
      simp only [exEnv, exMixtures, List.map_cons, List.map_nil,
        List.mem_cons, List.not_mem_nil, or_false] at hnm
      rcases hnm with rfl | rfl | rfl
      · exact Or.inr (by decide)
      · exact Or.inr (by decide)
      · exact Or.inr (by decide))

/-- Counterexample for C7 as stated: with the metric cell for CH4 set to
NaN, the built context does not behave as if CH4 had no entry — the
conversion to CO2 returns a NaN-magnitude quantity instead of raising the
dimensionality error that a truly absent species produces. -/
theorem claim_C7_counterexample :
    ¬ (toCtx (addMetricConversionsCol exEnv [(("CH4"), none)])
        (qsmul (exEnv.reg ("CH4")) (some 1)) (exEnv.reg ("CO2")) =
      toCtx (addMetricConversionsCol exEnv ([] : List (String × FV)))
        (qsmul (exEnv.reg ("CH4")) (some 1)) (exEnv.reg ("CO2"))) := by
  intro h
  have h1 : toCtx (addMetricConversionsCol exEnv [(("CH4"), none)])
      (qsmul (exEnv.reg ("CH4")) (some 1)) (exEnv.reg ("CO2")) =
      .ok ⟨none, 12 / 44, dOne 0⟩ := rfl
  have h2 : toCtx (addMetricConversionsCol exEnv ([] : List (String × FV)))
      (qsmul (exEnv.reg ("CH4")) (some 1)) (exEnv.reg ("CO2")) =
      .error ⟨dOne 3, dOne 0⟩ := rfl
  rw [h1, h2] at h
  exact Except.noConfusion h


/-- C3 (amended): in the mixture loop of `_add_metric_conversions_from_df`,
a mixture receives a synthesized conversion factor if and only if every one
of its constituents has a row in the metric column and the derived factor
`Σ (constituent_magnitude × factor)` is not NaN — regardless of whether the
mixture is also covered by a direct table entry and regardless of whether
the constituent magnitudes sum to 1; if any constituent's row is missing
the mixture is skipped entirely (the loop returns the context unchanged, no
partial synthesis and no error), and a later conversion attempt for that
mixture under that metric raises a dimensionality error carrying the
mixture's dimension tag (the metric name itself is not part of the error). -/
theorem claim_C3 {δ : Type} [DecidableEq δ] [Fintype δ] (env : Env δ)
    (col : List (String × FV)) (m : String) (dM : δ) (sM : ℚ)
    (tbl : MixtureEntries)
    (hnd : env.allDims.Nodup) (hmemd : dM ∈ env.allDims)
    (hlookm : env.MIX.lookup m = some tbl) (hname : env.dimName dM = m)
    (hregm : env.reg m = ⟨some 1, sM, dOne dM⟩) :
    ((tbl.map (fun e => e.1)).all (fun n => (col.lookup n).isSome) = false →
      ∀ ctx, addMixtureGwp env col ctx m = ctx) ∧
    ((tbl.map (fun e => e.1)).all (fun n => (col.lookup n).isSome) = true →
      mixtureVal env col m dM tbl = none →
      ∀ ctx, addMixtureGwp env col ctx m = ctx) ∧
    (∀ v : ℚ,
      (tbl.map (fun e => e.1)).all (fun n => (col.lookup n).isSome) = true →
      mixtureVal env col m dM tbl = some v →
      ∀ ctx, addMixtureGwp env col ctx m = addGwpToContext env ctx m (some v) ∧
        addMixtureGwp env col ctx m ≠ ctx) ∧
    ((tbl.map (fun e => e.1)).all (fun n => (col.lookup n).isSome) = false →
      (∀ p ∈ col, ∀ d,
        pickDim env.allDims ((env.reg p.1).dims) = some d → d ≠ dM) →
      (∀ name ∈ env.MIX.map (fun e => e.1),
        (∀ ctx, addMixtureGwp env col ctx name = ctx) ∨
        (∀ d, pickDim env.allDims ((env.reg name).dims) = some d → d ≠ dM)) →
      dM ≠ env.dCarbon → dM ≠ env.dMass → dM ≠ env.dTime →
      (env.reg ("CO2")).dims = dOne env.dCarbon →
      toCtx (addMetricConversionsCol env col) (qsmul (env.reg m) (some 1))
          (env.reg ("CO2")) =
        .error ⟨dOne dM, dOne env.dCarbon⟩) := by
  have hqd : (qsmul (env.reg m) (some 1)).dims = dOne dM := by
    rw [hregm]
    rfl
  refine ⟨addMixtureGwp_skip_missing env col m dM sM tbl hnd hmemd hlookm
      hname hregm,
    addMixtureGwp_skip_nan env col m dM sM tbl hnd hmemd hlookm hname hregm,
    ?_, ?_⟩
  · intro v hP hval ctx
    have hs := addMixtureGwp_synth env col m dM sM tbl hnd hmemd hlookm hname
      hregm v hP hval ctx
    refine ⟨hs, ?_⟩
    rw [hs]
    exact addGwp_ne_ctx env ctx m dM (some v)
      (by rw [hregm]; exact pickDim_dOne hnd hmemd)
  · intro hP hcol hmixes hC hM hT hco2d
    have inv : ∀ t ∈ addMetricConversionsCol env col, t.src dM = 0 := by
      unfold addMetricConversionsCol
      dsimp only
      exact foldMix_src_pres hC hM hT (env.MIX.map (fun e => e.1)) hmixes _
        (foldRows_src_pres hC hM hT col hcol [] (by simp))
    have hnone : lookupTrans (addMetricConversionsCol env col) (dOne dM)
        (dOne env.dCarbon) = none :=
      lookupTrans_eq_none (fun t ht hs => by
        have h0 := inv t ht
        rw [hs, dOne_self] at h0
        exact one_ne_zero h0)
    unfold toCtx
    rw [hqd, hco2d, if_neg (dOne_ne_dOne hC), hnone]

/-- Witness for C3 (amended), on the fixture with the AR4 column: HFC423a
has a constituent (HFC227ea) with no row, so its loop iteration leaves the
context unchanged and converting `1 * HFC423a` to CO2 raises the
dimensionality error carrying tag 5; HFC407a has all three constituent rows
and a non-NaN derived factor, so its iteration registers a synthesized
factor (it changes the context). -/
theorem claim_C3_witness :
    (∀ ctx, addMixtureGwp exEnv ar4Col ctx ("HFC423a") = ctx) ∧
    toCtx (addMetricConversionsCol exEnv ar4Col)
        (qsmul (exEnv.reg ("HFC423a")) (some 1)) (exEnv.reg ("CO2")) =
      .error ⟨dOne 5, dOne exEnv.dCarbon⟩ ∧
    addMixtureGwp exEnv ar4Col [] ("HFC407a") ≠ [] := by
  have c423 := claim_C3 exEnv ar4Col ("HFC423a") 5 1
    [(("HFC134a"), (105 / 2, 0, 0)), (("HFC227ea"), (95 / 2, 0, 0))]
    (by decide) (by decide) rfl rfl rfl
  have c407 := claim_C3 exEnv ar4Col ("HFC407a") 6 1
    [(("HFC32"), (20, 0, 0)), (("HFC125"), (40, 0, 0)), (("HFC134a"), (40, 0, 0))]
    (by decide) (by decide) rfl rfl rfl
  have hP423 : ((([(("HFC134a"), ((105 / 2 : ℚ), (0:ℚ), (0:ℚ))),
      (("HFC227ea"), ((95 / 2 : ℚ), (0:ℚ), (0:ℚ)))] : MixtureEntries).map
        (fun e => e.1)).all (fun n => (ar4Col.lookup n).isSome)) = false := by
    decide
  refine ⟨c423.1 hP423, ?_, ?_⟩
  · refine c423.2.2.2 hP423 (by decide) ?_ (by decide) (by decide) (by decide) rfl
    intro name hnm
    simp only [exEnv, exMixtures, List.map_cons, List.map_nil, List.mem_cons,
      List.not_mem_nil, or_false] at hnm
    rcases hnm with rfl | rfl | rfl
    · exact Or.inr (by decide)
    · exact Or.inr (by decide)
    · exact Or.inl (c423.1 hP423)
  · obtain ⟨v, hv⟩ : ∃ v : ℚ, mixtureVal exEnv ar4Col ("HFC407a") 6
        [(("HFC32"), (20, 0, 0)), (("HFC125"), (40, 0, 0)),
          (("HFC134a"), (40, 0, 0))] = some v := ⟨_, rfl⟩
    exact (c407.2.2.1 v (by decide) hv []).2

/-- Counterexample for C3 as stated: on a fixture whose HFC407a fraction
table sums to 120 and a metric column that covers HFC407a directly, the
mixture loop still synthesizes a factor for HFC407a, so "synthesized iff
not directly covered and all constituents tabulated and factor non-NaN and
magnitudes sum to 1" is false at this input (the left side holds, the right
side fails on both the direct-coverage and the sum-to-one conditions). -/
theorem claim_C3_counterexample :
    ¬ ((addMixtureGwp envBad colBad
        (colBad.foldl (fun c p => addGwpToContext envBad c p.1 p.2) [])
        ("HFC407a") ≠
        colBad.foldl (fun c p => addGwpToContext envBad c p.1 p.2) []) ↔
      ((colBad.lookup ("HFC407a")).isSome = false ∧
        (([(("HFC32"), ((30:ℚ), (0:ℚ), (0:ℚ))), (("HFC125"), ((40:ℚ), (0:ℚ), (0:ℚ))),
          (("HFC134a"), ((50:ℚ), (0:ℚ), (0:ℚ)))] : MixtureEntries).map
            (fun e => e.1)).all (fun n => (colBad.lookup n).isSome) = true ∧
        mixtureVal envBad colBad ("HFC407a") 6
          [(("HFC32"), (30, 0, 0)), (("HFC125"), (40, 0, 0)),
            (("HFC134a"), (50, 0, 0))] ≠ none ∧
        fvSum (((([(("HFC32"), (30, 0, 0)), (("HFC125"), (40, 0, 0)),
            (("HFC134a"), (50, 0, 0))] : MixtureEntries)).map (fun e =>
          qmul (qsdiv (qsmul (qdiv (qsmul (envBad.reg ("HFC407a")) (some 1))
              (envBad.reg (envBad.dimName 6))) (some (e.2.1))) (some 100))
            (envBad.reg (e.1)))).map Quantity.mag) = some 1)) := by
  intro hiff
  obtain ⟨v, hv⟩ : ∃ v : ℚ, mixtureVal envBad colBad ("HFC407a") 6
      [(("HFC32"), (30, 0, 0)), (("HFC125"), (40, 0, 0)),
        (("HFC134a"), (50, 0, 0))] = some v := ⟨_, rfl⟩
  have hsynth := (addMixtureGwp_synth envBad colBad ("HFC407a") 6 1
    [(("HFC32"), (30, 0, 0)), (("HFC125"), (40, 0, 0)),
      (("HFC134a"), (50, 0, 0))]
    (by decide) (by decide) rfl rfl rfl v (by decide) hv
    (colBad.foldl (fun c p => addGwpToContext envBad c p.1 p.2) []))
  have hne : addMixtureGwp envBad colBad
      (colBad.foldl (fun c p => addGwpToContext envBad c p.1 p.2) [])
      ("HFC407a") ≠
      colBad.foldl (fun c p => addGwpToContext envBad c p.1 p.2) [] := by
    rw [hsynth]
    exact addGwp_ne_ctx envBad _ ("HFC407a") 6 (some v) rfl
  have hrhs := hiff.1 hne
  have : (colBad.lookup ("HFC407a")).isSome = true := by decide
  rw [hrhs.1] at this
  exact Bool.false_ne_true this

theorem lookup_applyDefine_ne (r : MiniReg) (d : String × DefBody) (n : String)
    (hn : n ≠ d.1) : (applyDefine r d).lookup n = r.lookup n := by
  rcases d with ⟨nm, body⟩
  have hb : (n == nm) = false := beq_eq_false_iff_ne.2 hn
  cases body with
  | newBase dim => simp [applyDefine, List.lookup, hb]
  | fromExpr q u =>
    cases hu : r.lookup u with
    | none => simp [applyDefine, hu]
    | some du => simp [applyDefine, hu, List.lookup, hb]
  | jointOf mu u =>
    cases hm : r.lookup mu with
    | none => simp [applyDefine, hm]
    | some dm =>
      cases hu : r.lookup u with
      | none => simp [applyDefine, hm, hu]
      | some du => simp [applyDefine, hm, hu, List.lookup, hb]

theorem lookup_applyDefines_not_mem (ds : List (String × DefBody)) :
    ∀ (r : MiniReg) (n : String), n ∉ ds.map Prod.fst →
      (applyDefines r ds).lookup n = r.lookup n := by
  induction ds with
  | nil => intro r n _; rfl
  | cons d ds ih =>
    intro r n hn
    simp only [List.map_cons, List.mem_cons, not_or] at hn
    show (applyDefines (applyDefine r d) ds).lookup n = _
    rw [ih (applyDefine r d) n hn.2, lookup_applyDefine_ne r d n hn.1]

theorem applyDefines_append (r : MiniReg) (a b : List (String × DefBody)) :
    applyDefines r (a ++ b) = applyDefines (applyDefines r a) b :=
  List.foldl_append _ _ _ _

theorem gasDefines_decomp (symbol : String) (value : GasVal)
    (hup : symbol.toUpper ≠ symbol) :
    gasDefines symbol value =
      (symbol, headBody value) ::
        (midDefs symbol value ++
          ((symbol.toUpper, DefBody.fromExpr 1 symbol) ::
            jointDefines symbol.toUpper)) := by
  cases value with
  | base dimname =>
    simp [gasDefines, midDefs, headBody, hup]
  | derived head aliases =>
    simp [gasDefines, midDefs, headBody, hup]

/-- Processing the defines of one gases entry: the symbol keeps its
definition and the upper-case alias copies it (scale multiplied by 1). -/
theorem gasDefines_upper_lookup (r : MiniReg) (symbol : String)
    (value : GasVal) (u : UnitDefn)
    (hup : symbol.toUpper ≠ symbol)
    (hu : applyDefine r (symbol, headBody value) = (symbol, u) :: r)
    (hmid : symbol ∉ (midDefs symbol value).map Prod.fst)
    (hj1 : ("g") ++ symbol.toUpper ≠ symbol)
    (hj2 : ("t") ++ symbol.toUpper ≠ symbol)
    (hj3 : ("g") ++ symbol.toUpper ≠ symbol.toUpper)
    (hj4 : ("t") ++ symbol.toUpper ≠ symbol.toUpper) :
    (applyDefines r (gasDefines symbol value)).lookup symbol = some u ∧
    (applyDefines r (gasDefines symbol value)).lookup (symbol.toUpper) =
      some ⟨1 * u.scale, u.dims⟩ := by
  rw [gasDefines_decomp symbol value hup]
  have hcons : ∀ (rr : MiniReg) (d : String × DefBody)
      (L : List (String × DefBody)),
      applyDefines rr (d :: L) = applyDefines (applyDefine rr d) L :=
    fun rr d L => rfl
  rw [hcons, hu]
  rw [show (midDefs symbol value ++
      ((symbol.toUpper, DefBody.fromExpr 1 symbol) ::
        jointDefines symbol.toUpper)) =
    midDefs symbol value ++
      ([(symbol.toUpper, DefBody.fromExpr 1 symbol)] ++
        jointDefines symbol.toUpper) from by simp]
  rw [applyDefines_append, applyDefines_append]
  set R2 := applyDefines ((symbol, u) :: r) (midDefs symbol value) with hR2
  have hsym2 : R2.lookup symbol = some u := by
    rw [hR2, lookup_applyDefines_not_mem _ _ _ hmid]
    simp [List.lookup]
  have hstep : applyDefines R2 [(symbol.toUpper, DefBody.fromExpr 1 symbol)] =
      (symbol.toUpper, ⟨1 * u.scale, u.dims⟩) :: R2 := by
    show applyDefine R2 (symbol.toUpper, DefBody.fromExpr 1 symbol) = _
    unfold applyDefine
    dsimp only
    rw [hsym2]
  rw [hstep]
  constructor
  · rw [lookup_applyDefines_not_mem _ _ _ (by
      simp only [jointDefines, List.map_cons, List.map_nil, List.mem_cons,
        List.not_mem_nil, or_false, not_or]
      exact ⟨Ne.symm hj1, Ne.symm hj2⟩)]
    rw [show (((symbol.toUpper, (⟨1 * u.scale, u.dims⟩ : UnitDefn)) ::
      R2).lookup symbol) = R2.lookup symbol
      from by simp [List.lookup, beq_eq_false_iff_ne.2 (Ne.symm hup)]]
    exact hsym2
  · rw [lookup_applyDefines_not_mem _ _ _ (by
      simp only [jointDefines, List.map_cons, List.map_nil, List.mem_cons,
        List.not_mem_nil, or_false, not_or]
      exact ⟨Ne.symm hj3, Ne.symm hj4⟩)]
    simp [List.lookup]

/-- C8: for every species symbol, `_add_gases` emits an upper-case alias
whenever the upper-case spelling differs from the canonical one, together
with the joint units `g<symbol>` and `t<symbol>` for both the canonical and
the upper-case spellings; consequently, after the table is processed,
`registry(symbol.upper()).to(symbol)` has magnitude 1. -/
theorem claim_C8 (r0 : MiniReg) (pre post : List (String × GasVal))
    (symbol : String) (value : GasVal) (u : UnitDefn)
    (hup : symbol.toUpper ≠ symbol)
    (hu : applyDefine (applyDefines r0 (addGases pre)) (symbol, headBody value) =
      (symbol, u) :: applyDefines r0 (addGases pre))
    (hmid : symbol ∉ (midDefs symbol value).map Prod.fst)
    (hj1 : ("g") ++ symbol.toUpper ≠ symbol)
    (hj2 : ("t") ++ symbol.toUpper ≠ symbol)
    (hj3 : ("g") ++ symbol.toUpper ≠ symbol.toUpper)
    (hj4 : ("t") ++ symbol.toUpper ≠ symbol.toUpper)
    (hpost1 : symbol ∉ (addGases post).map Prod.fst)
    (hpost2 : symbol.toUpper ∉ (addGases post).map Prod.fst)
    (hscale : u.scale ≠ 0) :
    ((symbol.toUpper, DefBody.fromExpr 1 symbol) ∈ gasDefines symbol value ∧
      (("g") ++ symbol, DefBody.jointOf ("g") symbol) ∈
        gasDefines symbol value ∧
      (("t") ++ symbol, DefBody.jointOf ("t") symbol) ∈
        gasDefines symbol value ∧
      (("g") ++ symbol.toUpper, DefBody.jointOf ("g") (symbol.toUpper)) ∈
        gasDefines symbol value ∧
      (("t") ++ symbol.toUpper, DefBody.jointOf ("t") (symbol.toUpper)) ∈
        gasDefines symbol value) ∧
    miniToMag (applyDefines r0 (addGases (pre ++ (symbol, value) :: post)))
      (symbol.toUpper) symbol = some 1 := by
  have hdecomp := gasDefines_decomp symbol value hup
  constructor
  · refine ⟨?_, ?_, ?_, ?_, ?_⟩ <;> rw [hdecomp] <;>
      simp [midDefs, jointDefines]
  · have hsplit : addGases (pre ++ (symbol, value) :: post) =
        addGases pre ++ (gasDefines symbol value ++ addGases post) := by
      simp [addGases]
    rw [hsplit, applyDefines_append, applyDefines_append]
    have hblock := gasDefines_upper_lookup (applyDefines r0 (addGases pre))
      symbol value u hup hu hmid hj1 hj2 hj3 hj4
    unfold miniToMag
    rw [lookup_applyDefines_not_mem _ _ _ hpost2, hblock.2,
      lookup_applyDefines_not_mem _ _ _ hpost1, hblock.1]
    dsimp only
    rw [if_pos rfl, one_mul, div_self hscale]

/-- Witness for C8: a one-entry gases table defining the base unit
HFC134a, on an initial registry holding the gram and tonne mass units. -/
theorem claim_C8_witness :
    ((("HFC134a").toUpper, DefBody.fromExpr 1 ("HFC134a")) ∈
        gasDefines ("HFC134a") (GasVal.base ("HFC134a")) ∧
      (("g") ++ ("HFC134a"), DefBody.jointOf ("g") ("HFC134a")) ∈
        gasDefines ("HFC134a") (GasVal.base ("HFC134a")) ∧
      (("t") ++ ("HFC134a"), DefBody.jointOf ("t") ("HFC134a")) ∈
        gasDefines ("HFC134a") (GasVal.base ("HFC134a")) ∧
      (("g") ++ ("HFC134a").toUpper, DefBody.jointOf ("g")
          (("HFC134a").toUpper)) ∈
        gasDefines ("HFC134a") (GasVal.base ("HFC134a")) ∧
      (("t") ++ ("HFC134a").toUpper, DefBody.jointOf ("t")
          (("HFC134a").toUpper)) ∈
        gasDefines ("HFC134a") (GasVal.base ("HFC134a"))) ∧
    miniToMag (applyDefines
        [(("g"), ⟨1, [("mass")]⟩), (("t"), ⟨1000000, [("mass")]⟩)]
        (addGases ([] ++ (("HFC134a"), GasVal.base ("HFC134a")) :: [])))
      (("HFC134a").toUpper) ("HFC134a") = some 1 :=
  claim_C8 [(("g"), ⟨1, [("mass")]⟩), (("t"), ⟨1000000, [("mass")]⟩)]
    [] [] ("HFC134a") (GasVal.base ("HFC134a")) ⟨1, [("HFC134a")]⟩
    (by rw [String.toUpper, String.map_eq]; decide) rfl (by decide)
    (by rw [String.toUpper, String.map_eq]; decide)
    (by rw [String.toUpper, String.map_eq]; decide)
    (by rw [String.toUpper, String.map_eq]; decide)
    (by rw [String.toUpper, String.map_eq]; decide)
    (by decide)
    (by rw [String.toUpper, String.map_eq]; decide) (by norm_num)

end OpenscmUnits
